import Mathlib

/-!
# TreeFrog connection worker (`TActionThread`) and `TViewHelper::linkToIf`

A shallow embedding of `src/src/tactionthread.cpp` and of the inline
functions `linkToIf` / `linkToUnless` of `src/src/tviewhelper.h`.

* Byte arrays are lists of byte values, headers are lists of name/value pairs.
* The collaborators the worker calls (the socket adapter `THttpSocket`, the
  dispatcher `TActionContext::execute/release`, the upgrade resolver
  `TWebSocket`, the session store, the event loop) are a record of transition
  functions over an arbitrary state type `σ`; `const` member functions are
  observers of that state.
* Every call that may have an effect appends one `Event` to a trace.
* The three loops of the worker (`readRequest`'s wait loop, `for (;;)` in
  `run`, the event drain) take fuel; a function that runs out of fuel still
  returns the state it reached.
-/

namespace TreeFrog

/-! ## Byte arrays and headers -/

/-- A `QByteArray`: the list of its byte values. -/
abbrev QByteArray := List Nat

/-- The bytes of an ASCII literal. -/
def bytes (s : String) : QByteArray := s.toList.map Char.toNat

/-- Lower-casing of one byte as done by `QByteArray::toLower` (Latin-1):
`A..Z` and the accented capitals `0xC0..0xDE` except `0xD7` move up by 32. -/
def toLowerByte (b : Nat) : Nat :=
  if 65 ≤ b ∧ b ≤ 90 then b + 32
  else if 192 ≤ b ∧ b ≤ 222 ∧ b ≠ 215 then b + 32
  else b

/-- The Qt call `QByteArray::toLower`. -/
def toLower (a : QByteArray) : QByteArray := a.map toLowerByte

/-- The Qt call `QByteArray::contains`: `pat` occurs in `a` as a contiguous run. -/
def contains : QByteArray → QByteArray → Bool
  | [], pat => pat.isEmpty
  | b :: rest, pat => pat.isPrefixOf (b :: rest) || contains rest pat

/-- An HTTP header (`THttpHeader`, used for request and response headers):
the first line and the list of raw name/value pairs. -/
structure THttpHeader where
  firstLine : QByteArray
  headerPairList : List (QByteArray × QByteArray)
deriving DecidableEq, Repr

/-- Case-insensitive comparison of two field names. -/
def sameField (k name : QByteArray) : Bool := toLower k == toLower name

/-- Modelled from the spec: `THttpHeader::rawHeader` (class
`TInternetMessageHeader`, not part of the sources at hand). The value of the
first field whose name equals `key` without regard to case, the empty byte
array when there is none. -/
def rawHeader (h : THttpHeader) (key : QByteArray) : QByteArray :=
  match h.headerPairList.find? (fun p => sameField p.1 key) with
  | some p => p.2
  | none => []

/-- Replaces the value of the first field named `key` and drops later fields
of that name. -/
def replaceField (key value : QByteArray) :
    List (QByteArray × QByteArray) → List (QByteArray × QByteArray)
  | [] => []
  | p :: rest =>
    if sameField p.1 key then
      (p.1, value) :: rest.filter (fun q => !sameField q.1 key)
    else p :: replaceField key value rest

/-- Modelled from the spec: `THttpHeader::setRawHeader` (class
`TInternetMessageHeader`, not part of the sources at hand). Forces the field
`key` to `value`: an existing field of that name takes the value, otherwise
the pair is appended. Fields of other names are left as they are. -/
def setRawHeader (h : THttpHeader) (key value : QByteArray) : THttpHeader :=
  if h.headerPairList.any (fun p => sameField p.1 key) then
    { h with headerPairList := replaceField key value h.headerPairList }
  else
    { h with headerPairList := h.headerPairList ++ [(key, value)] }

/-- A parsed request (`THttpRequest`): its header and its entity body. -/
structure THttpRequest where
  header : THttpHeader
  body : QByteArray
deriving DecidableEq, Repr

/-- A session (`TSession`): its identifier and its stored pairs; the default
constructed session is empty. -/
structure TSession where
  id : QByteArray
  values : List (QByteArray × QByteArray)
deriving DecidableEq, Repr

/-- The default constructed `TSession`. -/
def TSession.empty : TSession := ⟨[], []⟩

/-! ## `TViewHelper::linkToIf` and `linkToUnless` -/

/-- A `QString`: `none` is the null string, `some s` a string with content `s`. -/
abbrev QString := Option String

/-- The signature of the five argument overload of `TViewHelper::linkTo`
(declared in the header, defined elsewhere): text, url, method, JavaScript
condition, attributes. -/
abbrev LinkTo (Url Method Attr : Type) := QString → Url → Method → QString → Attr → QString

/-- The inline function `TViewHelper::linkToIf`. -/
def linkToIf {Url Method Attr : Type} (linkTo : LinkTo Url Method Attr)
    (condition : Bool) (text : QString) (url : Url) (method : Method)
    (jsCondition : QString) (attributes : Attr) : QString :=
  if condition then linkTo text url method jsCondition attributes else text

/-- The inline function `TViewHelper::linkToUnless`. -/
def linkToUnless {Url Method Attr : Type} (linkTo : LinkTo Url Method Attr)
    (condition : Bool) (text : QString) (url : Url) (method : Method)
    (jsCondition : QString) (attributes : Attr) : QString :=
  linkToIf linkTo (!condition) text url method jsCondition attributes

/-! ## `TActionThread::waitForAllDone` -/

/-- The loop of `TActionThread::waitForAllDone(msec)`, started at poll number
`i`. `threadCount k` is the value the `k`-th call of `threadCount()` reads
and `elapsed k` the value the `k`-th call of `time.elapsed()` reads (the
clock is read once after every poll that found a positive count). The first
argument is the fuel: the number of polls allowed. -/
def waitLoop (msec : Int) (threadCount elapsed : Nat → Int) : Nat → Nat → Option Bool
  | 0, _ => none
  | fuel + 1, i =>
    let cnt := threadCount i
    if cnt > 0 then
      if elapsed i > msec then some (cnt == 0)
      else waitLoop msec threadCount elapsed fuel (i + 1)
    else some (cnt == 0)

/-- The function `TActionThread::waitForAllDone(msec)` on the streams of
values read from the counter and from the clock. -/
def waitForAllDone (msec : Int) (threadCount elapsed : Nat → Int) (fuel : Nat) : Option Bool :=
  waitLoop msec threadCount elapsed fuel 0

/-! ## Collaborators and the trace of calls -/

/-- The persistent connection object built by `new TWebSocket(sd, peer, header)`. -/
structure TWebSocket where
  sd : Int
  peerAddress : QByteArray
  header : THttpHeader
deriving DecidableEq, Repr

/-- One call made by the worker to a collaborator, with its arguments. -/
inductive Event where
  | newHttpSocket
  | setSocketDescriptor (sd : Int)
  | emitError (socketError : Int)
  | waitForReadyRead (msec : Int)
  | abort
  | read
  | execute (req : THttpRequest)
  | flush
  | release
  | write (header : THttpHeader) (body : QByteArray)
  | close
  | processEvents
  | deleteHttpSocket
  | searchEndpoint (header : THttpHeader)
  | writeRawData (data : QByteArray)
  | waitForBytesWritten
  | duplicateSocket (sd : Int)
  | newWebSocket (ws : TWebSocket)
  | connectDeleteLater (ws : TWebSocket)
  | moveToThread (ws : TWebSocket)
  | findSession (sessionId : QByteArray)
  | startWorkerForOpening (ws : TWebSocket) (session : TSession)
  | tfClose (sd : Int)
deriving DecidableEq, Repr

/-- The collaborators of the worker over a state `σ` of everything outside
the worker. Member functions declared `const` (`canReadRequest`, `idleTime`,
`socketDescriptor`, `error`, `peerAddress`) and the pure header functions
(`handshakeResponse`, `cookie` of the session name) read the state; every
other call is a transition that may change it in any way. -/
structure Collab (σ : Type) where
  newHttpSocket : σ → σ
  setSocketDescriptor : Int → σ → Bool × σ
  error : σ → Int
  emitError : Int → σ → σ
  canReadRequest : σ → Bool
  idleTime : σ → Int
  socketDescriptor : σ → Int
  waitForReadyRead : Int → σ → Bool × σ
  abort : σ → σ
  read : σ → List THttpRequest × σ
  execute : THttpRequest → σ → σ
  flush : σ → σ
  release : σ → σ
  write : THttpHeader → QByteArray → σ → Int × σ
  close : σ → σ
  processEvents : σ → Bool × σ
  deleteHttpSocket : σ → σ
  searchEndpoint : THttpHeader → σ → Bool × σ
  handshakeResponse : THttpHeader → QByteArray
  writeRawData : QByteArray → σ → σ
  waitForBytesWritten : σ → σ
  duplicateSocket : Int → σ → Int × σ
  peerAddress : σ → QByteArray
  newWebSocket : TWebSocket → σ → σ
  connectDeleteLater : TWebSocket → σ → σ
  moveToThread : TWebSocket → σ → σ
  sessionCookie : THttpHeader → QByteArray
  findSession : QByteArray → σ → TSession × σ
  startWorkerForOpening : TWebSocket → TSession → σ → σ
  tfClose : Int → σ → σ

/-- What one worker sees: the process-wide `threadCounter`, its own members
`socketDesc` and `httpSocket` (`true` when the pointer is not null), the
state of the collaborators and the trace of the calls made so far. -/
structure Ctx (σ : Type) where
  threadCounter : Int
  socketDesc : Int
  httpSocket : Bool
  ext : σ
  trace : List Event

/-- Records the call `e` and installs the collaborator state it left. -/
def Ctx.call {σ : Type} (c : Ctx σ) (e : Event) (s : σ) : Ctx σ :=
  { c with ext := s, trace := c.trace ++ [e] }

/-! ## `TActionThread::readRequest` -/

/-- The condition under which the wait loop of `readRequest` is left: a
request can be read, or the idle time reached 10 seconds, or the descriptor
is not positive. -/
def leavesWait {σ : Type} (env : Collab σ) (s : σ) : Bool :=
  env.canReadRequest s || decide (env.idleTime s ≥ 10) || decide (env.socketDescriptor s ≤ 0)

/-- The `while (!socket->canReadRequest())` loop of `readRequest`. The fuel
bounds the number of times the loop condition is evaluated; the flag tells
whether the loop was left (`true`) or the fuel ran out (`false`). -/
def readWait {σ : Type} (env : Collab σ) : Nat → Ctx σ → Bool × Ctx σ
  | 0, c => (false, c)
  | fuel + 1, c =>
    if env.canReadRequest c.ext then (true, c)
    else if env.idleTime c.ext ≥ 10 then (true, c)
    else if env.socketDescriptor c.ext ≤ 0 then (true, c)
    else readWait env fuel (c.call (.waitForReadyRead 10) (env.waitForReadyRead 10 c.ext).2)

/-- The function `TActionThread::readRequest`. The result is `none` when the
wait loop did not end within the fuel, otherwise the batch returned. -/
def readRequest {σ : Type} (env : Collab σ) (fuel : Nat) (c : Ctx σ) :
    Option (List THttpRequest) × Ctx σ :=
  match readWait env fuel c with
  | (false, c1) => (none, c1)
  | (true, c1) =>
    if !env.canReadRequest c1.ext then
      (some [], c1.call .abort (env.abort c1.ext))
    else
      (some (env.read c1.ext).1, c1.call .read (env.read c1.ext).2)

/-! ## `TActionThread::writeResponse` and `closeHttpSocket` -/

/-- The function `TActionThread::writeResponse`: the header is passed by
reference, so the header as left by the call is returned with the byte
count. -/
def writeResponse {σ : Type} (env : Collab σ) (header : THttpHeader) (body : QByteArray)
    (c : Ctx σ) : Int × THttpHeader × Ctx σ :=
  let header1 := setRawHeader header (bytes "Connection") (bytes "Keep-Alive")
  ((env.write header1 body c.ext).1, header1,
    c.call (.write header1 body) (env.write header1 body c.ext).2)

/-- The function `TActionThread::closeHttpSocket`. -/
def closeHttpSocket {σ : Type} (env : Collab σ) (c : Ctx σ) : Ctx σ :=
  c.call .close (env.close c.ext)

/-! ## `TActionThread::handshakeForWebSocket` -/

/-- The function `TActionThread::handshakeForWebSocket`. -/
def handshakeForWebSocket {σ : Type} (env : Collab σ) (header : THttpHeader) (c : Ctx σ) :
    Bool × Ctx σ :=
  let c0 := c.call (.searchEndpoint header) (env.searchEndpoint header c.ext).2
  if !(env.searchEndpoint header c.ext).1 then (false, c0)
  else
    let resp := env.handshakeResponse header
    let c1 := c0.call (.writeRawData resp) (env.writeRawData resp c0.ext)
    let c2 := c1.call .waitForBytesWritten (env.waitForBytesWritten c1.ext)
    let sd := (env.duplicateSocket (env.socketDescriptor c2.ext) c2.ext).1
    let c3 := c2.call (.duplicateSocket (env.socketDescriptor c2.ext))
      (env.duplicateSocket (env.socketDescriptor c2.ext) c2.ext).2
    let ws : TWebSocket := ⟨sd, env.peerAddress c3.ext, header⟩
    let c4 := c3.call (.newWebSocket ws) (env.newWebSocket ws c3.ext)
    let c5 := c4.call (.connectDeleteLater ws) (env.connectDeleteLater ws c4.ext)
    let c6 := c5.call (.moveToThread ws) (env.moveToThread ws c5.ext)
    let sessionId := env.sessionCookie header
    if !sessionId.isEmpty then
      let session := (env.findSession sessionId c6.ext).1
      let c7 := c6.call (.findSession sessionId) (env.findSession sessionId c6.ext).2
      (true, c7.call (.startWorkerForOpening ws session) (env.startWorkerForOpening ws session c7.ext))
    else
      (true, c6.call (.startWorkerForOpening ws TSession.empty)
        (env.startWorkerForOpening ws TSession.empty c6.ext))

/-! ## `TActionThread::run` -/

/-- The test `connectionHeader.contains("upgrade")` of `run`. -/
def connectionUpgrade (req : THttpRequest) : Bool :=
  contains (toLower (rawHeader req.header (bytes "Connection"))) (bytes "upgrade")

/-- The test `upgradeHeader == "websocket"` of `run`. -/
def upgradeWebsocket (req : THttpRequest) : Bool :=
  toLower (rawHeader req.header (bytes "Upgrade")) == bytes "websocket"

/-- How the loop over one batch is left. -/
inductive BatchExit where
  | completed
  | socketCleanup
  | socketError
deriving DecidableEq, Repr

/-- The loop `for (auto &req : reqs)` of `run`. -/
def dispatchBatch {σ : Type} (env : Collab σ) : List THttpRequest → Ctx σ → BatchExit × Ctx σ
  | [], c => (.completed, c)
  | req :: rest, c =>
    if connectionUpgrade req then
      if upgradeWebsocket req then
        match handshakeForWebSocket env req.header c with
        | (false, c1) => (.socketError, c1)
        | (true, c1) => (.socketCleanup, c1)
      else (.socketCleanup, c)
    else
      let c1 := c.call (.execute req) (env.execute req c.ext)
      let c2 := c1.call .flush (env.flush c1.ext)
      let c3 := c2.call .release (env.release c2.ext)
      dispatchBatch env rest c3

/-- How the loop `for (;;)` of `run` is left. -/
inductive LoopExit where
  | closing
  | socketCleanup
  | socketError
  | outOfFuel
deriving DecidableEq, Repr

/-- The loop `for (;;)` of `run`; `inner` is the fuel given to each
`readRequest`, the next argument bounds the number of batches. -/
def mainLoop {σ : Type} (env : Collab σ) (inner : Nat) : Nat → Ctx σ → LoopExit × Ctx σ
  | 0, c => (.outOfFuel, c)
  | fuel + 1, c =>
    match readRequest env inner c with
    | (none, c1) => (.outOfFuel, c1)
    | (some reqs, c1) =>
      if reqs.isEmpty then (.closing, c1)
      else
        match dispatchBatch env reqs c1 with
        | (.socketError, c2) => (.socketError, c2)
        | (.socketCleanup, c2) => (.socketCleanup, c2)
        | (.completed, c2) =>
          if !(env.waitForReadyRead 5000 c2.ext).1 then
            (.closing, c2.call (.waitForReadyRead 5000) (env.waitForReadyRead 5000 c2.ext).2)
          else
            mainLoop env inner fuel
              (c2.call (.waitForReadyRead 5000) (env.waitForReadyRead 5000 c2.ext).2)

/-- The label `socket_error` of `run`: `delete httpSocket; httpSocket = nullptr`. -/
def socketError {σ : Type} (env : Collab σ) (c : Ctx σ) : Ctx σ :=
  { c.call .deleteHttpSocket (env.deleteHttpSocket c.ext) with httpSocket := false }

/-- The loop `while (eventLoop.processEvents()) {}` under the label
`socket_cleanup`; the flag tells whether the loop ended within the fuel. -/
def drainEvents {σ : Type} (env : Collab σ) : Nat → Ctx σ → Bool × Ctx σ
  | 0, c => (false, c)
  | fuel + 1, c =>
    if (env.processEvents c.ext).1 then
      drainEvents env fuel (c.call .processEvents (env.processEvents c.ext).2)
    else (true, c.call .processEvents (env.processEvents c.ext).2)

/-- The label `socket_cleanup` of `run`, falling through to `socket_error`. -/
def socketCleanup {σ : Type} (env : Collab σ) (fuel : Nat) (c : Ctx σ) : Bool × Ctx σ :=
  match drainEvents env fuel c with
  | (false, c1) => (false, c1)
  | (true, c1) => (true, socketError env c1)

/-- The part of `run` after the loop `for (;;)`, by the way the loop was left. -/
def afterLoop {σ : Type} (env : Collab σ) (fuel : Nat) : LoopExit → Ctx σ → Bool × Ctx σ
  | .outOfFuel, c => (false, c)
  | .socketError, c => (true, socketError env c)
  | .socketCleanup, c => socketCleanup env fuel c
  | .closing, c => socketCleanup env fuel (closeHttpSocket env c)

/-- The function `TActionThread::run`. The flag tells whether `run` returned
within the fuel; the context is the state reached in either case. -/
def run {σ : Type} (env : Collab σ) (fuel : Nat) (c : Ctx σ) : Bool × Ctx σ :=
  let c0 := { c.call .newHttpSocket (env.newHttpSocket c.ext) with httpSocket := true }
  let c1 := c0.call (.setSocketDescriptor c0.socketDesc)
    (env.setSocketDescriptor c0.socketDesc c0.ext).2
  if !(env.setSocketDescriptor c0.socketDesc c0.ext).1 then
    (true, socketError env (c1.call (.emitError (env.error c1.ext)) (env.emitError (env.error c1.ext) c1.ext)))
  else
    let c2 := { c1 with socketDesc := 0 }
    match mainLoop env fuel fuel c2 with
    | (exit, c3) => afterLoop env fuel exit c3

/-! ## Construction and destruction of workers -/

/-- Wrap-around of a 32-bit signed integer, the arithmetic of `QAtomicInt`. -/
def wrapInt32 (x : Int) : Int := (x + 2147483648) % 4294967296 - 2147483648

/-- The members of one `TActionThread`. -/
structure Worker where
  socketDesc : Int
  httpSocket : Bool
deriving DecidableEq, Repr

/-- The process: the counter, every worker ever constructed in order of
construction (`none` once destroyed), the collaborators and the trace. -/
structure Process (σ : Type) where
  threadCounter : Int
  workers : List (Option Worker)
  ext : σ
  trace : List Event

/-- The function `TActionThread::threadCount`. -/
def threadCount {σ : Type} (p : Process σ) : Int := p.threadCounter

/-- The number of workers constructed and not yet destroyed. -/
def liveWorkers {σ : Type} (p : Process σ) : Nat :=
  (p.workers.filter Option.isSome).length

/-- The constructor `TActionThread::TActionThread(int socket)`. -/
def construct {σ : Type} (socket : Int) (p : Process σ) : Process σ :=
  { p with
    threadCounter := wrapInt32 (p.threadCounter + 1)
    workers := p.workers ++ [some ⟨socket, false⟩] }

/-- The context of worker `w` inside process `p`. -/
def Process.ctx {σ : Type} (p : Process σ) (w : Worker) : Ctx σ :=
  ⟨p.threadCounter, w.socketDesc, w.httpSocket, p.ext, p.trace⟩

/-- Writes the context of worker number `id` back into the process. -/
def Process.store {σ : Type} (p : Process σ) (id : Nat) (w : Option Worker) (c : Ctx σ) :
    Process σ :=
  ⟨c.threadCounter, p.workers.set id w, c.ext, c.trace⟩

/-- The body of the destructor `TActionThread::~TActionThread` on the context
of the worker. -/
def destructBody {σ : Type} (env : Collab σ) (c : Ctx σ) : Ctx σ :=
  let c1 := if c.httpSocket then c.call .deleteHttpSocket (env.deleteHttpSocket c.ext) else c
  let c2 := if c1.socketDesc > 0 then c1.call (.tfClose c1.socketDesc) (env.tfClose c1.socketDesc c1.ext) else c1
  { c2 with threadCounter := wrapInt32 (c2.threadCounter - 1) }

/-- One step of the life of the process. -/
inductive Op where
  | construct (socket : Int)
  | run (id : Nat) (fuel : Nat)
  | destroy (id : Nat)
deriving DecidableEq, Repr

/-- Executes one step; `none` when the step names a worker that does not
exist or was destroyed already. -/
def applyOp {σ : Type} (env : Collab σ) (p : Process σ) : Op → Option (Process σ)
  | .construct socket => some (construct socket p)
  | .run id fuel =>
    match p.workers.get? id with
    | some (some w) =>
      let c := (run env fuel (p.ctx w)).2
      some (p.store id (some ⟨c.socketDesc, c.httpSocket⟩) c)
    | _ => none
  | .destroy id =>
    match p.workers.get? id with
    | some (some w) => some (p.store id none (destructBody env (p.ctx w)))
    | _ => none

/-- Executes a sequence of steps from left to right. -/
def applyOps {σ : Type} (env : Collab σ) : List Op → Process σ → Option (Process σ)
  | [], p => some p
  | op :: ops, p =>
    match applyOp env p op with
    | some p1 => applyOps env ops p1
    | none => none

/-! ## A concrete environment

A small simulated peer used to evaluate the definitions: complete requests
wait in `buffered`, each `waitForReadyRead` delivers the next element of
`arriving` (or lets one more second of idle time pass when nothing is left). -/

/-- The state of the simulated collaborators. -/
structure Sim where
  bindOk : Bool
  errorCode : Int
  descriptor : Int
  idle : Int
  buffered : List THttpRequest
  arriving : List (List THttpRequest)
  endpointKnown : Bool
deriving DecidableEq, Repr

/-- The simulated `waitForReadyRead`. -/
def Sim.waitForReadyRead (s : Sim) : Bool × Sim :=
  match s.arriving with
  | [] => (false, { s with idle := s.idle + 1 })
  | b :: rest => (true, { s with buffered := s.buffered ++ b, arriving := rest, idle := 0 })

/-- The simulated collaborators. -/
def simEnv : Collab Sim where
  newHttpSocket := id
  setSocketDescriptor := fun sd s => (s.bindOk, if s.bindOk then { s with descriptor := sd } else s)
  error := fun s => s.errorCode
  emitError := fun _ s => s
  canReadRequest := fun s => !s.buffered.isEmpty
  idleTime := fun s => s.idle
  socketDescriptor := fun s => s.descriptor
  waitForReadyRead := fun _ s => s.waitForReadyRead
  abort := fun s => { s with descriptor := -1 }
  read := fun s => (s.buffered, { s with buffered := [] })
  execute := fun _ s => s
  flush := id
  release := id
  write := fun h body s => ((h.headerPairList.length + body.length : Nat), s)
  close := fun s => { s with descriptor := -1 }
  processEvents := fun s => (false, s)
  deleteHttpSocket := id
  searchEndpoint := fun _ s => (s.endpointKnown, s)
  handshakeResponse := fun _ => bytes "HTTP/1.1 101 Switching Protocols"
  writeRawData := fun _ s => s
  waitForBytesWritten := id
  duplicateSocket := fun sd s => (sd + 1, s)
  peerAddress := fun _ => bytes "127.0.0.1"
  newWebSocket := fun _ s => s
  connectDeleteLater := fun _ s => s
  moveToThread := fun _ s => s
  sessionCookie := fun h => rawHeader h (bytes "Cookie")
  findSession := fun sid s => (⟨sid, []⟩, s)
  startWorkerForOpening := fun _ _ s => s
  tfClose := fun _ s => s

/-- A request with the given header fields and an empty body. -/
def mkRequest (fields : List (String × String)) : THttpRequest :=
  ⟨⟨bytes "GET / HTTP/1.1", fields.map (fun p => (bytes p.1, bytes p.2))⟩, []⟩

/-- A plain request. -/
def plainRequest : THttpRequest := mkRequest [("Host", "a")]

/-- A second plain request asking to close the connection. -/
def closeRequest : THttpRequest := mkRequest [("Host", "b"), ("Connection", "close")]

/-- A websocket upgrade request. -/
def websocketRequest : THttpRequest :=
  mkRequest [("Connection", "Upgrade"), ("Upgrade", "WebSocket")]

/-- An upgrade request naming another protocol. -/
def h2cRequest : THttpRequest :=
  mkRequest [("Connection", "Upgrade"), ("Upgrade", "h2c")]

/-- A simulated peer with nothing buffered and nothing arriving. -/
def quietSim : Sim := ⟨true, 0, 7, 0, [], [], true⟩

/-- The context of a worker constructed on descriptor 7 with an empty trace. -/
def startCtx (s : Sim) : Ctx Sim := ⟨1, 7, false, s, []⟩

/-- A peer from which a batch of two plain requests arrives with the second
wait. -/
def lateBatchCtx : Ctx Sim :=
  startCtx { quietSim with arriving := [[], [plainRequest, closeRequest]] }

/-- A peer with a batch of two plain requests already buffered. -/
def pipelinedCtx : Ctx Sim :=
  startCtx { quietSim with buffered := [plainRequest, closeRequest] }

/-- A peer with no endpoint matching an upgrade request. -/
def noEndpointCtx : Ctx Sim := startCtx { quietSim with endpointKnown := false }

/-- A peer on which binding the descriptor fails with error code 5. -/
def bindFailCtx : Ctx Sim := startCtx { quietSim with bindOk := false, errorCode := 5 }

/-- A process with counter 0, no worker, a quiet peer and an empty trace. -/
def emptyProcess : Process Sim := ⟨0, [], quietSim, []⟩

/-- A process whose counter holds the largest 32-bit value, with no worker. -/
def saturatedProcess : Process Sim := ⟨2147483647, [], quietSim, []⟩

/-- A peer with one websocket upgrade request buffered and no endpoint
matching it. -/
def noEndpointUpgradeCtx : Ctx Sim :=
  startCtx { quietSim with buffered := [websocketRequest], endpointKnown := false }

/-- A peer that has been idle for 10 seconds with nothing buffered, so that
`readRequest` yields the empty batch at once. -/
def idleTimeoutCtx : Ctx Sim := startCtx { quietSim with idle := 10 }

/-! ## Auxiliary definitions used in the statements -/

/-- The calls made for a batch all of whose requests are dispatched. -/
def batchEvents : List THttpRequest → List Event
  | [] => []
  | r :: rest => .execute r :: .flush :: .release :: batchEvents rest

/-- The collaborator state at the point where `handshakeForWebSocket`
duplicates the descriptor: after `searchEndpoint`, `writeRawData` of the
handshake response and `waitForBytesWritten`. -/
def afterHandshakeWrite {σ : Type} (env : Collab σ) (header : THttpHeader) (s : σ) : σ :=
  env.waitForBytesWritten
    (env.writeRawData (env.handshakeResponse header) (env.searchEndpoint header s).2)

/-- The persistent connection `handshakeForWebSocket` constructs: duplicated
descriptor, peer address, the request header. -/
def handshakeSocket {σ : Type} (env : Collab σ) (header : THttpHeader) (s : σ) : TWebSocket :=
  ⟨(env.duplicateSocket (env.socketDescriptor (afterHandshakeWrite env header s))
      (afterHandshakeWrite env header s)).1,
   env.peerAddress (env.duplicateSocket (env.socketDescriptor (afterHandshakeWrite env header s))
      (afterHandshakeWrite env header s)).2,
   header⟩

/-- The collaborator state at the point where `handshakeForWebSocket` looks
for the session: after the persistent connection was constructed, connected
and moved to the application thread. -/
def afterMoveToThread {σ : Type} (env : Collab σ) (header : THttpHeader) (s : σ) : σ :=
  env.moveToThread (handshakeSocket env header s)
    (env.connectDeleteLater (handshakeSocket env header s)
      (env.newWebSocket (handshakeSocket env header s)
        (env.duplicateSocket (env.socketDescriptor (afterHandshakeWrite env header s))
          (afterHandshakeWrite env header s)).2))

/-- The call that hands the connection over to the persistent connection. -/
def isHandoff : Event → Bool
  | .startWorkerForOpening _ _ => true
  | _ => false

/-- The emission of the error signal. -/
def isEmitError : Event → Bool
  | .emitError _ => true
  | _ => false

/-- An event that is neither the hand-over nor the error signal. -/
def isPlain (e : Event) : Bool := !isHandoff e && !isEmitError e

/-- The only calls `run` makes after a hand-over: draining the event loop and
deleting the socket object. -/
def isQuiet : Event → Bool
  | .processEvents => true
  | .deleteHttpSocket => true
  | _ => false

/-- Context `c1` is reached from `c` by appending the events `t` to the trace
and leaving the counter alone. -/
def Reaches {σ : Type} (c c1 : Ctx σ) (t : List Event) : Prop :=
  c1.trace = c.trace ++ t ∧ c1.threadCounter = c.threadCounter


/-- The context after `k` calls of `waitForReadyRead(10)`. -/
def waitTimes {σ : Type} (env : Collab σ) : Nat → Ctx σ → Ctx σ
  | 0, c => c
  | k + 1, c => waitTimes env k (c.call (.waitForReadyRead 10) (env.waitForReadyRead 10 c.ext).2)

/-- The events appended to the trace between context `c` and the later
context `c1`. -/
def appended {σ : Type} (c c1 : Ctx σ) : List Event := c1.trace.drop c.trace.length

/-! ## Basic facts -/

@[simp] theorem Ctx.call_trace {σ : Type} (c : Ctx σ) (e : Event) (s : σ) :
    (c.call e s).trace = c.trace ++ [e] := rfl

@[simp] theorem Ctx.call_ext {σ : Type} (c : Ctx σ) (e : Event) (s : σ) :
    (c.call e s).ext = s := rfl

@[simp] theorem Ctx.call_threadCounter {σ : Type} (c : Ctx σ) (e : Event) (s : σ) :
    (c.call e s).threadCounter = c.threadCounter := rfl

@[simp] theorem Ctx.call_socketDesc {σ : Type} (c : Ctx σ) (e : Event) (s : σ) :
    (c.call e s).socketDesc = c.socketDesc := rfl

@[simp] theorem Ctx.call_httpSocket {σ : Type} (c : Ctx σ) (e : Event) (s : σ) :
    (c.call e s).httpSocket = c.httpSocket := rfl

/-! ## `linkToIf` / `linkToUnless` -/

/-- C10: with a false condition `linkToIf` returns its `text` argument, not
a null string, and `linkToUnless` with a true condition does the same; with
the condition the other way round both return the tag made by `linkTo`. -/
theorem linkToIf_false_returns_text :
    linkToIf (fun (_ : QString) (_ : String) (_ : Nat) (_ : QString) (_ : Unit) =>
        (some "<a href=\"/home\">Home</a>" : QString)) false (some "Home") "/home" 0 none () = some "Home"
    ∧ linkToUnless (fun (_ : QString) (_ : String) (_ : Nat) (_ : QString) (_ : Unit) =>
        (some "<a href=\"/home\">Home</a>" : QString)) true (some "Home") "/home" 0 none () = some "Home"
    ∧ (∀ (Url Method Attr : Type) (linkTo : LinkTo Url Method Attr) (text : QString) (url : Url)
        (method : Method) (js : QString) (attributes : Attr),
        linkToIf linkTo false text url method js attributes = text
        ∧ linkToUnless linkTo true text url method js attributes = text
        ∧ linkToIf linkTo true text url method js attributes = linkTo text url method js attributes
        ∧ linkToUnless linkTo false text url method js attributes
            = linkTo text url method js attributes) := by
  refine ⟨rfl, rfl, ?_⟩
  intro Url Method Attr linkTo text url method js attributes
  exact ⟨rfl, rfl, rfl, rfl⟩

/-! ## `waitForAllDone` -/

theorem waitLoop_reach (msec : Int) (threadCount elapsed : Nat → Int) (n : Nat) :
    ∀ (fuel i : Nat),
      (∀ j, i ≤ j → j < i + n → 0 < threadCount j ∧ elapsed j ≤ msec) →
      waitLoop msec threadCount elapsed (fuel + n) i
        = waitLoop msec threadCount elapsed fuel (i + n) := by
  induction n with
  | zero => intro fuel i _; rfl
  | succ n ih =>
    intro fuel i h
    have h0 := h i (le_refl i) (by omega)
    have hstep : waitLoop msec threadCount elapsed (fuel + n + 1) i
        = waitLoop msec threadCount elapsed (fuel + n) (i + 1) := by
      simp only [waitLoop]
      rw [if_pos h0.1, if_neg (not_lt.mpr h0.2)]
    have hrest := ih fuel (i + 1) (fun j h1 h2 => h j (by omega) (by omega))
    rw [show fuel + (n + 1) = fuel + n + 1 by omega, hstep, hrest]
    congr 1
    omega

theorem waitLoop_stop (msec : Int) (threadCount elapsed : Nat → Int) (fuel n : Nat)
    (hstop : threadCount n ≤ 0 ∨ msec < elapsed n) :
    waitLoop msec threadCount elapsed (fuel + 1) n = some (threadCount n == 0) := by
  simp only [waitLoop]
  by_cases hc : threadCount n > 0
  · rw [if_pos hc]
    rcases hstop with h | h
    · omega
    · rw [if_pos h]
  · rw [if_neg hc]

/-- C2 (refuted as stated): with `msec = 0`, a worker active at the time of
the call (the first poll reads 1) and a clock that still reads 0 at the first
deadline test, `waitForAllDone` polls again and returns true. -/
theorem waitForAllDone_zero_timeout_true :
    (0 : Int) < (fun i : Nat => if i = 0 then (1 : Int) else 0) 0
    ∧ waitForAllDone 0 (fun i => if i = 0 then 1 else 0) (fun _ => 0) 2 = some true := by
  decide

/-- C2 (amended): let poll `n` be the first one that either reads a count
that is not positive or is followed by a clock reading above `msec`. With
more than `n` units of fuel `waitForAllDone` returns, its result is whether
poll `n` read 0, and that is the case exactly when some poll read 0 while
every earlier poll read a positive count and was followed by a clock reading
not above `msec`. With a positive first poll and a first clock reading above
`msec` (for `msec = 0`: a reading above 0) the result is false. With `n`
units of fuel or fewer the loop is still polling. -/
theorem waitForAllDone_characterisation (msec : Int) (threadCount elapsed : Nat → Int)
    (n fuel : Nat)
    (hbefore : ∀ j, j < n → 0 < threadCount j ∧ elapsed j ≤ msec)
    (hstop : threadCount n ≤ 0 ∨ msec < elapsed n)
    (hfuel : n < fuel) :
    waitForAllDone msec threadCount elapsed fuel = some (threadCount n == 0)
    ∧ (waitForAllDone msec threadCount elapsed fuel = some true ↔
        ∃ i, threadCount i = 0 ∧ ∀ j, j < i → 0 < threadCount j ∧ elapsed j ≤ msec)
    ∧ (0 < threadCount 0 → msec < elapsed 0 →
        waitForAllDone msec threadCount elapsed fuel = some false)
    ∧ (∀ m, m ≤ n → waitForAllDone msec threadCount elapsed m = none) := by
  have hres : waitForAllDone msec threadCount elapsed fuel = some (threadCount n == 0) := by
    obtain ⟨k, rfl⟩ : ∃ k, fuel = (k + 1) + n := ⟨fuel - n - 1, by omega⟩
    unfold waitForAllDone
    rw [waitLoop_reach msec threadCount elapsed n (k + 1) 0
      (fun j _ h2 => hbefore j (by omega))]
    simpa using waitLoop_stop msec threadCount elapsed k n hstop
  refine ⟨hres, ?_, ?_, ?_⟩
  · rw [hres]
    constructor
    · intro h
      refine ⟨n, ?_, hbefore⟩
      simpa using h
    · rintro ⟨i, hi0, hi⟩
      have hin : i = n := by
        rcases Nat.lt_trichotomy i n with h | h | h
        · have := (hbefore i h).1
          omega
        · exact h
        · have h1 := hi n h
          rcases hstop with h2 | h2 <;> omega
      subst hin
      simp [hi0]
  · intro hpos hlate
    obtain ⟨k, rfl⟩ : ∃ k, fuel = k + 1 := ⟨fuel - 1, by omega⟩
    unfold waitForAllDone
    rw [waitLoop_stop msec threadCount elapsed k 0 (Or.inr hlate)]
    have : threadCount 0 ≠ 0 := by omega
    simp [this]
  · intro m hm
    unfold waitForAllDone
    have := waitLoop_reach msec threadCount elapsed m 0 0 (fun j _ h2 => hbefore j (by omega))
    simp only [Nat.zero_add] at this
    rw [this]
    rfl

/-- Witness for C2 (amended): three polls read 2, 1, 0 within a deadline of
100 ms. -/
theorem waitForAllDone_characterisation_witness :
    waitForAllDone 100 (fun i => 2 - (i : Int)) (fun i => 10 * (i : Int)) 5
        = some ((fun i : Nat => 2 - (i : Int)) 2 == 0)
    ∧ (waitForAllDone 100 (fun i => 2 - (i : Int)) (fun i => 10 * (i : Int)) 5 = some true ↔
        ∃ i, (fun i : Nat => 2 - (i : Int)) i = 0
          ∧ ∀ j, j < i → 0 < (fun i : Nat => 2 - (i : Int)) j
            ∧ (fun i : Nat => 10 * (i : Int)) j ≤ 100)
    ∧ (0 < (fun i : Nat => 2 - (i : Int)) 0 → 100 < (fun i : Nat => 10 * (i : Int)) 0 →
        waitForAllDone 100 (fun i => 2 - (i : Int)) (fun i => 10 * (i : Int)) 5 = some false)
    ∧ (∀ m, m ≤ 2 →
        waitForAllDone 100 (fun i => 2 - (i : Int)) (fun i => 10 * (i : Int)) m = none) :=
  waitForAllDone_characterisation 100 (fun i => 2 - (i : Int)) (fun i => 10 * (i : Int)) 2 5
    (by intro j hj; interval_cases j <;> simp)
    (by simp) (by decide)

/-! ## `writeResponse` -/

theorem sameField_refl (k : QByteArray) : sameField k k = true := by
  simp [sameField]

theorem sameField_other {a k key : QByteArray} (h1 : sameField a key = true)
    (h2 : sameField k key = false) : sameField a k = false := by
  simp only [sameField, beq_iff_eq, beq_eq_false_iff_ne, ne_eq] at *
  intro h
  exact h2 (h ▸ h1)

theorem find_filter_other (key k : QByteArray) (h : sameField k key = false)
    (l : List (QByteArray × QByteArray)) :
    (l.filter (fun q => !sameField q.1 key)).find? (fun p => sameField p.1 k)
      = l.find? (fun p => sameField p.1 k) := by
  induction l with
  | nil => rfl
  | cons p rest ih =>
    by_cases hp : sameField p.1 key = true
    · have hk : sameField p.1 k = false := sameField_other hp h
      simp [List.filter, hp, List.find?, hk, ih]
    · have hp1 : sameField p.1 key = false := by simpa using hp
      simp only [List.filter, hp1, Bool.not_false, List.find?]
      rw [ih]

theorem find_replaceField_other (key value k : QByteArray) (h : sameField k key = false)
    (l : List (QByteArray × QByteArray)) :
    (replaceField key value l).find? (fun p => sameField p.1 k)
      = l.find? (fun p => sameField p.1 k) := by
  induction l with
  | nil => rfl
  | cons p rest ih =>
    by_cases hp : sameField p.1 key = true
    · have hk : sameField p.1 k = false := sameField_other hp h
      simp only [replaceField, hp, if_true, List.find?, hk]
      exact find_filter_other key k h rest
    · have hp1 : sameField p.1 key = false := by simpa using hp
      simp [replaceField, hp1, List.find?, ih]

theorem find_replaceField_same (key value : QByteArray) (l : List (QByteArray × QByteArray))
    (h : l.any (fun p => sameField p.1 key) = true) :
    ∃ name, (replaceField key value l).find? (fun p => sameField p.1 key) = some (name, value) := by
  induction l with
  | nil => simp at h
  | cons p rest ih =>
    by_cases hp : sameField p.1 key = true
    · exact ⟨p.1, by simp [replaceField, hp, List.find?]⟩
    · have hp1 : sameField p.1 key = false := by simpa using hp
      have hrest : rest.any (fun p => sameField p.1 key) = true := by
        simpa [List.any, hp1] using h
      obtain ⟨name, hname⟩ := ih hrest
      exact ⟨name, by simp [replaceField, hp1, List.find?, hname]⟩

theorem filter_replaceField (key value : QByteArray) (l : List (QByteArray × QByteArray)) :
    (replaceField key value l).filter (fun q => !sameField q.1 key)
      = l.filter (fun q => !sameField q.1 key) := by
  induction l with
  | nil => rfl
  | cons p rest ih =>
    by_cases hp : sameField p.1 key = true
    · simp [replaceField, hp, List.filter]
    · have hp1 : sameField p.1 key = false := by simpa using hp
      simp [replaceField, hp1, List.filter, ih]

theorem rawHeader_setRawHeader_same (h : THttpHeader) (key value : QByteArray) :
    rawHeader (setRawHeader h key value) key = value := by
  unfold setRawHeader
  by_cases hany : h.headerPairList.any (fun p => sameField p.1 key) = true
  · rw [if_pos hany]
    obtain ⟨name, hname⟩ := find_replaceField_same key value h.headerPairList hany
    simp [rawHeader, hname]
  · rw [if_neg hany]
    have hnone : h.headerPairList.find? (fun p => sameField p.1 key) = none := by
      rw [List.find?_eq_none]
      intro x hx hsame
      exact hany (List.any_eq_true.mpr ⟨x, hx, hsame⟩)
    simp [rawHeader, List.find?_append, hnone, List.find?, sameField_refl]

theorem rawHeader_setRawHeader_other (h : THttpHeader) (key value k : QByteArray)
    (hk : sameField k key = false) :
    rawHeader (setRawHeader h key value) k = rawHeader h k := by
  unfold setRawHeader
  by_cases hany : h.headerPairList.any (fun p => sameField p.1 key) = true
  · rw [if_pos hany]
    simp only [rawHeader]
    rw [find_replaceField_other key value k hk]
  · rw [if_neg hany]
    have hkey : sameField key k = false := sameField_other (sameField_refl key) hk
    simp only [rawHeader, List.find?_append, List.find?, hkey]
    cases h.headerPairList.find? (fun p => sameField p.1 k) <;> rfl

theorem filter_setRawHeader (h : THttpHeader) (key value : QByteArray) :
    (setRawHeader h key value).headerPairList.filter (fun q => !sameField q.1 key)
      = h.headerPairList.filter (fun q => !sameField q.1 key) := by
  unfold setRawHeader
  by_cases hany : h.headerPairList.any (fun p => sameField p.1 key) = true
  · rw [if_pos hany]
    exact filter_replaceField key value h.headerPairList
  · rw [if_neg hany]
    simp [List.filter_append, List.filter, sameField_refl]

/-- C4: for every header and body, `writeResponse` hands to the socket's
`write` a header whose `Connection` field is `Keep-Alive`, whose first line
is that of the header given, whose fields of every other name (read by name
or taken as the list of such fields) are those of the header given; it makes
this one call and returns the byte count that `write` returned. -/
theorem writeResponse_forces_keepAlive {σ : Type} (env : Collab σ) (header : THttpHeader)
    (body : QByteArray) (c : Ctx σ) :
    ∃ sent : THttpHeader,
      (writeResponse env header body c).2.2.trace = c.trace ++ [Event.write sent body]
      ∧ (writeResponse env header body c).2.1 = sent
      ∧ rawHeader sent (bytes "Connection") = bytes "Keep-Alive"
      ∧ sent.firstLine = header.firstLine
      ∧ (∀ k, sameField k (bytes "Connection") = false → rawHeader sent k = rawHeader header k)
      ∧ sent.headerPairList.filter (fun q => !sameField q.1 (bytes "Connection"))
          = header.headerPairList.filter (fun q => !sameField q.1 (bytes "Connection"))
      ∧ (writeResponse env header body c).1 = (env.write sent body c.ext).1
      ∧ (writeResponse env header body c).2.2.ext = (env.write sent body c.ext).2 := by
  refine ⟨setRawHeader header (bytes "Connection") (bytes "Keep-Alive"), rfl, rfl,
    rawHeader_setRawHeader_same _ _ _, ?_,
    fun k hk => rawHeader_setRawHeader_other _ _ _ k hk,
    filter_setRawHeader _ _ _, rfl, rfl⟩
  unfold setRawHeader
  split <;> rfl

/-! ## `handshakeForWebSocket`: endpoint not found -/

/-- C7: when `searchEndpoint` returns false, `handshakeForWebSocket` returns
false after that single call (no raw write, no duplication, no persistent
connection, no session lookup), and `run`'s batch loop leaves through
`socket_error`; conversely a raw write or the construction of a persistent
connection appears among the calls of `handshakeForWebSocket` only if
`searchEndpoint` returned true. -/
theorem handshake_endpoint_not_found {σ : Type} (env : Collab σ) (header : THttpHeader)
    (c : Ctx σ) :
    ((env.searchEndpoint header c.ext).1 = false →
      handshakeForWebSocket env header c
        = (false, c.call (.searchEndpoint header) (env.searchEndpoint header c.ext).2)
      ∧ appended c (handshakeForWebSocket env header c).2 = [Event.searchEndpoint header]
      ∧ ∀ (req : THttpRequest) (rest : List THttpRequest), req.header = header →
          connectionUpgrade req = true → upgradeWebsocket req = true →
          dispatchBatch env (req :: rest) c
            = (BatchExit.socketError,
                c.call (.searchEndpoint header) (env.searchEndpoint header c.ext).2))
    ∧ (∀ e, e ∈ appended c (handshakeForWebSocket env header c).2 →
        ((∃ d, e = Event.writeRawData d) ∨ (∃ ws, e = Event.newWebSocket ws)) →
        (env.searchEndpoint header c.ext).1 = true) := by
  have hnot : (env.searchEndpoint header c.ext).1 = false →
      handshakeForWebSocket env header c
        = (false, c.call (.searchEndpoint header) (env.searchEndpoint header c.ext).2) := by
    intro h
    simp [handshakeForWebSocket, h]
  have happ : (env.searchEndpoint header c.ext).1 = false →
      appended c (handshakeForWebSocket env header c).2 = [Event.searchEndpoint header] := by
    intro h
    rw [hnot h]
    simp [appended]
  refine ⟨fun h => ⟨hnot h, happ h, ?_⟩, ?_⟩
  · intro req rest hreq hconn hup
    subst hreq
    simp [dispatchBatch, hconn, hup, hnot h]
  · intro e he hkind
    by_contra hfalse
    have h : (env.searchEndpoint header c.ext).1 = false := by simpa using hfalse
    rw [happ h] at he
    simp only [List.mem_singleton] at he
    subst he
    rcases hkind with ⟨d, hd⟩ | ⟨ws, hws⟩
    · cases hd
    · cases hws

/-- Witness for C7: a websocket upgrade request on a peer with no matching
endpoint. -/
theorem handshake_endpoint_not_found_witness :
    (simEnv.searchEndpoint websocketRequest.header
        noEndpointCtx.ext).1 = false
    ∧ (handshakeForWebSocket simEnv websocketRequest.header
        noEndpointCtx).1 = false
    ∧ appended noEndpointCtx
        (handshakeForWebSocket simEnv websocketRequest.header
          noEndpointCtx).2
        = [Event.searchEndpoint websocketRequest.header] :=
  ⟨rfl,
   congrArg Prod.fst ((handshake_endpoint_not_found simEnv websocketRequest.header
      noEndpointCtx).1 rfl).1,
   ((handshake_endpoint_not_found simEnv websocketRequest.header
      noEndpointCtx).1 rfl).2.1⟩

/-! ## `readRequest` -/

theorem leavesWait_false {σ : Type} (env : Collab σ) (s : σ) (h : leavesWait env s = false) :
    env.canReadRequest s = false ∧ ¬ env.idleTime s ≥ 10 ∧ ¬ env.socketDescriptor s ≤ 0 := by
  simpa [leavesWait, not_or, and_assoc] using h

theorem readWait_leave {σ : Type} (env : Collab σ) (fuel : Nat) (c : Ctx σ)
    (h : leavesWait env c.ext = true) : readWait env (fuel + 1) c = (true, c) := by
  simp only [readWait]
  by_cases h1 : env.canReadRequest c.ext = true
  · rw [if_pos h1]
  · rw [if_neg h1]
    by_cases h2 : env.idleTime c.ext ≥ 10
    · rw [if_pos h2]
    · rw [if_neg h2]
      by_cases h3 : env.socketDescriptor c.ext ≤ 0
      · rw [if_pos h3]
      · exfalso
        simp [leavesWait, h1, h2, h3] at h

theorem readWait_waiting {σ : Type} (env : Collab σ) (k : Nat) :
    ∀ (fuel : Nat) (c : Ctx σ),
      (∀ j, j < k → leavesWait env (waitTimes env j c).ext = false) →
      readWait env (k + fuel) c = readWait env fuel (waitTimes env k c) := by
  induction k with
  | zero => intro fuel c _; simp [waitTimes]
  | succ k ih =>
    intro fuel c h
    obtain ⟨h1, h2, h3⟩ := leavesWait_false env c.ext (h 0 (by omega))
    rw [show k + 1 + fuel = (k + fuel) + 1 by omega]
    simp only [readWait, h1, Bool.false_eq_true, if_false, if_neg h2, if_neg h3]
    rw [ih fuel _ (fun j hj => h (j + 1) (by omega))]
    rfl

theorem waitTimes_trace {σ : Type} (env : Collab σ) (k : Nat) :
    ∀ c : Ctx σ, (waitTimes env k c).trace
      = c.trace ++ List.replicate k (Event.waitForReadyRead 10) := by
  induction k with
  | zero => intro c; simp [waitTimes]
  | succ k ih =>
    intro c
    simp only [waitTimes]
    rw [ih]
    simp [List.replicate_succ]

/-- C8: let the wait loop of `readRequest` be left after `k` calls of
`waitForReadyRead(10)` (before each of them no request could be read, the
idle time was below 10 and the descriptor positive). With more than `k`
units of fuel `readRequest` returns: when no request can be read at that
point it made the `k` waits followed by one `abort`, no `read`, and returns
the empty batch; otherwise it made the `k` waits followed by one `read`, no
`abort`, and returns the batch of that `read`. With `k` units of fuel or
fewer it is still waiting: it has made only waits and returned nothing. -/
theorem readRequest_abort_or_batch {σ : Type} (env : Collab σ) (c : Ctx σ) (k fuel : Nat)
    (hwait : ∀ j, j < k → leavesWait env (waitTimes env j c).ext = false)
    (hleave : leavesWait env (waitTimes env k c).ext = true)
    (hfuel : k < fuel) :
    (env.canReadRequest (waitTimes env k c).ext = false →
      (readRequest env fuel c).1 = some []
      ∧ (readRequest env fuel c).2.trace
          = c.trace ++ List.replicate k (Event.waitForReadyRead 10) ++ [Event.abort]
      ∧ (readRequest env fuel c).2.ext = env.abort (waitTimes env k c).ext)
    ∧ (env.canReadRequest (waitTimes env k c).ext = true →
      (readRequest env fuel c).1 = some (env.read (waitTimes env k c).ext).1
      ∧ (readRequest env fuel c).2.trace
          = c.trace ++ List.replicate k (Event.waitForReadyRead 10) ++ [Event.read]
      ∧ (readRequest env fuel c).2.ext = (env.read (waitTimes env k c).ext).2)
    ∧ (∀ n, n ≤ k →
      (readRequest env n c).1 = none
      ∧ (readRequest env n c).2.trace
          = c.trace ++ List.replicate n (Event.waitForReadyRead 10)) := by
  obtain ⟨m, rfl⟩ : ∃ m, fuel = k + (m + 1) := ⟨fuel - k - 1, by omega⟩
  have hloop : readWait env (k + (m + 1)) c = (true, waitTimes env k c) := by
    rw [readWait_waiting env k (m + 1) c hwait, readWait_leave env m _ hleave]
  refine ⟨?_, ?_, ?_⟩
  · intro hcan
    simp [readRequest, hloop, hcan, waitTimes_trace]
  · intro hcan
    simp [readRequest, hloop, hcan, waitTimes_trace]
  · intro n hn
    have h0 : readWait env n c = (false, waitTimes env n c) := by
      have := readWait_waiting env n 0 c (fun j hj => hwait j (by omega))
      simpa [readWait] using this
    simp [readRequest, h0, waitTimes_trace]

/-- Witness for C8: nothing buffered, a batch of two requests arrives with
the second wait; `readRequest` waits twice, reads once and returns them. -/
theorem readRequest_abort_or_batch_witness :
    (readRequest simEnv 5 lateBatchCtx).1 = some [plainRequest, closeRequest]
    ∧ (readRequest simEnv 5 lateBatchCtx).2.trace
        = [Event.waitForReadyRead 10, Event.waitForReadyRead 10, Event.read] :=
  ⟨((readRequest_abort_or_batch simEnv lateBatchCtx 2 5
      (by intro j hj; interval_cases j <;> rfl) rfl (by decide)).2.1 rfl).1,
   ((readRequest_abort_or_batch simEnv lateBatchCtx 2 5
      (by intro j hj; interval_cases j <;> rfl) rfl (by decide)).2.1 rfl).2.1⟩

/-! ## The batch loop of `run` -/

theorem dispatchBatch_plain {σ : Type} (env : Collab σ) (reqs : List THttpRequest) :
    ∀ c : Ctx σ, (∀ r, r ∈ reqs → connectionUpgrade r = false) →
      (dispatchBatch env reqs c).1 = BatchExit.completed
      ∧ (dispatchBatch env reqs c).2.trace = c.trace ++ batchEvents reqs := by
  induction reqs with
  | nil => intro c _; simp [dispatchBatch, batchEvents]
  | cons r rest ih =>
    intro c h
    have hr : connectionUpgrade r = false := h r (List.mem_cons_self r rest)
    have hrest := ih (((c.call (.execute r) (env.execute r c.ext)).call .flush
      (env.flush (env.execute r c.ext))).call .release
      (env.release (env.flush (env.execute r c.ext))))
      (fun q hq => h q (List.mem_cons_of_mem r hq))
    simp only [dispatchBatch, hr, Bool.false_eq_true, if_false, Ctx.call_ext]
    refine ⟨hrest.1, ?_⟩
    rw [hrest.2]
    simp [batchEvents]

/-- C3: when one `readRequest` returns a non-empty batch in which no request
has a `Connection` header containing `upgrade` (in any letter case), the
batch loop of `run` runs to its end having appended exactly
`execute(r1), flush, release, ..., execute(rk), flush, release` in arrival
order; the next call after `release` of the last request is
`waitForReadyRead(5000)`, and only from the context after that call does the
loop `for (;;)` go on to read another batch (or leave, when nothing became
ready). -/
theorem pipelined_dispatch_order {σ : Type} (env : Collab σ) (inner fuel : Nat) (c c1 : Ctx σ)
    (reqs : List THttpRequest)
    (hread : readRequest env inner c = (some reqs, c1))
    (hne : reqs ≠ [])
    (hplain : ∀ r, r ∈ reqs → connectionUpgrade r = false) :
    (dispatchBatch env reqs c1).1 = BatchExit.completed
    ∧ (dispatchBatch env reqs c1).2.trace = c1.trace ++ batchEvents reqs
    ∧ (batchEvents reqs).filterMap
        (fun e => match e with | Event.execute r => some r | _ => none) = reqs
    ∧ ∃ c3 : Ctx σ,
        c3.trace = c1.trace ++ batchEvents reqs ++ [Event.waitForReadyRead 5000]
        ∧ c3.ext = (env.waitForReadyRead 5000 (dispatchBatch env reqs c1).2.ext).2
        ∧ mainLoop env inner (fuel + 1) c
            = if (env.waitForReadyRead 5000 (dispatchBatch env reqs c1).2.ext).1
              then mainLoop env inner fuel c3 else (LoopExit.closing, c3) := by
  obtain ⟨h1, h2⟩ := dispatchBatch_plain env reqs c1 hplain
  refine ⟨h1, h2, ?_, ?_⟩
  · clear hread hne hplain h1 h2
    induction reqs with
    | nil => rfl
    | cons r rest ih => simp [batchEvents, List.filterMap, ih]
  · refine ⟨(dispatchBatch env reqs c1).2.call (.waitForReadyRead 5000)
      (env.waitForReadyRead 5000 (dispatchBatch env reqs c1).2.ext).2, ?_, rfl, ?_⟩
    · simp [h2]
    · have hemp : reqs.isEmpty = false := by
        cases reqs with
        | nil => exact absurd rfl hne
        | cons r rest => rfl
      generalize hd : dispatchBatch env reqs c1 = d at h1
      obtain ⟨ex, c2⟩ := d
      simp only at h1
      subst h1
      simp only [mainLoop, hread, hemp, Bool.false_eq_true, if_false, hd]
      by_cases hw : (env.waitForReadyRead 5000 c2.ext).1 = true
      · simp [hw]
      · simp [hw]

/-- Witness for C3: a batch of two plain requests (the second one asking for
`Connection: close`) is read at once and dispatched in order. -/
theorem pipelined_dispatch_order_witness :
    (dispatchBatch simEnv [plainRequest, closeRequest]
        (readRequest simEnv 3 pipelinedCtx).2).1 = BatchExit.completed
    ∧ (dispatchBatch simEnv [plainRequest, closeRequest]
        (readRequest simEnv 3 pipelinedCtx).2).2.trace
        = [Event.read, Event.execute plainRequest, Event.flush, Event.release,
            Event.execute closeRequest, Event.flush, Event.release] :=
  ⟨(pipelined_dispatch_order simEnv 3 3 pipelinedCtx (readRequest simEnv 3 pipelinedCtx).2
      [plainRequest, closeRequest] rfl (by simp) (by decide)).1,
   (pipelined_dispatch_order simEnv 3 3 pipelinedCtx (readRequest simEnv 3 pipelinedCtx).2
      [plainRequest, closeRequest] rfl (by simp) (by decide)).2.1⟩

/-! ## Trace extension -/

theorem Reaches.refl {σ : Type} (c : Ctx σ) : Reaches c c [] := by
  simp [Reaches]

theorem Reaches.call {σ : Type} (c : Ctx σ) (e : Event) (s : σ) : Reaches c (c.call e s) [e] := by
  simp [Reaches]

theorem Reaches.trans {σ : Type} {a b c : Ctx σ} {t u : List Event}
    (h1 : Reaches a b t) (h2 : Reaches b c u) : Reaches a c (t ++ u) := by
  obtain ⟨h1t, h1c⟩ := h1
  obtain ⟨h2t, h2c⟩ := h2
  exact ⟨by rw [h2t, h1t, List.append_assoc], by rw [h2c, h1c]⟩

theorem Reaches.appended_eq {σ : Type} {c c1 : Ctx σ} {t : List Event} (h : Reaches c c1 t) :
    appended c c1 = t := by
  simp [appended, h.1]

theorem handshake_found_no_cookie {σ : Type} (env : Collab σ) (header : THttpHeader) (c : Ctx σ)
    (hs : (env.searchEndpoint header c.ext).1 = true)
    (hc : (env.sessionCookie header).isEmpty = true) :
    (handshakeForWebSocket env header c).1 = true
    ∧ Reaches c (handshakeForWebSocket env header c).2
        [Event.searchEndpoint header, Event.writeRawData (env.handshakeResponse header),
          Event.waitForBytesWritten,
          Event.duplicateSocket (env.socketDescriptor (afterHandshakeWrite env header c.ext)),
          Event.newWebSocket (handshakeSocket env header c.ext),
          Event.connectDeleteLater (handshakeSocket env header c.ext),
          Event.moveToThread (handshakeSocket env header c.ext),
          Event.startWorkerForOpening (handshakeSocket env header c.ext) TSession.empty] := by
  simp [handshakeForWebSocket, hs, hc, Reaches, handshakeSocket, afterHandshakeWrite]

theorem handshake_found_cookie {σ : Type} (env : Collab σ) (header : THttpHeader) (c : Ctx σ)
    (hs : (env.searchEndpoint header c.ext).1 = true)
    (hc : (env.sessionCookie header).isEmpty = false) :
    (handshakeForWebSocket env header c).1 = true
    ∧ Reaches c (handshakeForWebSocket env header c).2
        [Event.searchEndpoint header, Event.writeRawData (env.handshakeResponse header),
          Event.waitForBytesWritten,
          Event.duplicateSocket (env.socketDescriptor (afterHandshakeWrite env header c.ext)),
          Event.newWebSocket (handshakeSocket env header c.ext),
          Event.connectDeleteLater (handshakeSocket env header c.ext),
          Event.moveToThread (handshakeSocket env header c.ext),
          Event.findSession (env.sessionCookie header),
          Event.startWorkerForOpening (handshakeSocket env header c.ext)
            (env.findSession (env.sessionCookie header) (afterMoveToThread env header c.ext)).1] := by
  simp [handshakeForWebSocket, hs, hc, Reaches, handshakeSocket, afterHandshakeWrite,
    afterMoveToThread]

theorem handshake_not_found_reaches {σ : Type} (env : Collab σ) (header : THttpHeader)
    (c : Ctx σ) (hs : (env.searchEndpoint header c.ext).1 = false) :
    (handshakeForWebSocket env header c).1 = false
    ∧ Reaches c (handshakeForWebSocket env header c).2 [Event.searchEndpoint header] := by
  simp [handshakeForWebSocket, hs, Reaches]

theorem handshake_reaches {σ : Type} (env : Collab σ) (header : THttpHeader) (c : Ctx σ) :
    ∃ t, Reaches c (handshakeForWebSocket env header c).2 (Event.searchEndpoint header :: t)
      ∧ (((handshakeForWebSocket env header c).1 = false ∧ t = [])
        ∨ ((handshakeForWebSocket env header c).1 = true
          ∧ ∃ t0 ws session, t = t0 ++ [Event.startWorkerForOpening ws session]
            ∧ ∀ e, e ∈ t0 → isPlain e = true)) := by
  by_cases hs : (env.searchEndpoint header c.ext).1 = true
  · by_cases hc : (env.sessionCookie header).isEmpty = true
    · obtain ⟨h1, h2⟩ := handshake_found_no_cookie env header c hs hc
      refine ⟨_, h2, Or.inr ⟨h1, [_, _, _, _, _, _], _, _, rfl, ?_⟩⟩
      intro e he
      simp only [List.mem_cons, List.mem_singleton, List.not_mem_nil, or_false] at he
      rcases he with h | h | h | h | h | h <;> subst h <;> rfl
    · obtain ⟨h1, h2⟩ := handshake_found_cookie env header c hs (by simpa using hc)
      refine ⟨_, h2, Or.inr ⟨h1, [_, _, _, _, _, _, _], _, _, rfl, ?_⟩⟩
      intro e he
      simp only [List.mem_cons, List.mem_singleton, List.not_mem_nil, or_false] at he
      rcases he with h | h | h | h | h | h | h <;> subst h <;> rfl
  · obtain ⟨h1, h2⟩ := handshake_not_found_reaches env header c (by simpa using hs)
    exact ⟨[], h2, Or.inl ⟨h1, rfl⟩⟩

/-! ## Upgrade detection -/

/-- C5 (refuted as stated): a batch whose first request carries
`Connection: Upgrade` with `Upgrade: h2c` is not dispatched at all: the
batch loop leaves through `socket_cleanup` without a single call, so neither
that request nor the plain request after it is executed. -/
theorem upgrade_other_protocol_not_dispatched :
    connectionUpgrade h2cRequest = true
    ∧ upgradeWebsocket h2cRequest = false
    ∧ (dispatchBatch simEnv [h2cRequest, plainRequest] (startCtx quietSim)).1
        = BatchExit.socketCleanup
    ∧ (dispatchBatch simEnv [h2cRequest, plainRequest] (startCtx quietSim)).2.trace = [] := by
  decide

/-- C5 (amended): for the request at the head of what is left of a batch,
(a) when its lower-cased `Connection` header contains `upgrade` and its
lower-cased `Upgrade` header equals `websocket`, the worker enters
`handshakeForWebSocket` and processes no later request of the batch;
(b) when its `Connection` header contains `upgrade` and its `Upgrade` header
is anything else, the worker makes no call at all for this request and
processes no later request of the batch, leaving through `socket_cleanup`;
(c) when its `Connection` header does not contain `upgrade`, the request is
dispatched (`execute`, `flush`, `release`) and the worker continues with the
next request. The handshake is entered exactly in case (a). -/
theorem upgrade_detection {σ : Type} (env : Collab σ) (req : THttpRequest)
    (rest : List THttpRequest) (c : Ctx σ) :
    (connectionUpgrade req = true → upgradeWebsocket req = true →
      (dispatchBatch env (req :: rest) c).2 = (handshakeForWebSocket env req.header c).2
      ∧ (dispatchBatch env (req :: rest) c).1
          = if (handshakeForWebSocket env req.header c).1 then BatchExit.socketCleanup
            else BatchExit.socketError)
    ∧ (connectionUpgrade req = true → upgradeWebsocket req = false →
      dispatchBatch env (req :: rest) c = (BatchExit.socketCleanup, c))
    ∧ (connectionUpgrade req = false →
      dispatchBatch env (req :: rest) c
        = dispatchBatch env rest
            (((c.call (.execute req) (env.execute req c.ext)).call .flush
              (env.flush (env.execute req c.ext))).call .release
              (env.release (env.flush (env.execute req c.ext))))
      ∧ (appended c (dispatchBatch env (req :: rest) c).2).take 3
          = [Event.execute req, Event.flush, Event.release])
    ∧ ((appended c (dispatchBatch env (req :: rest) c).2).head?
          = some (Event.searchEndpoint req.header)
        ↔ connectionUpgrade req = true ∧ upgradeWebsocket req = true) := by
  have ha : connectionUpgrade req = true → upgradeWebsocket req = true →
      (dispatchBatch env (req :: rest) c).2 = (handshakeForWebSocket env req.header c).2
      ∧ (dispatchBatch env (req :: rest) c).1
          = if (handshakeForWebSocket env req.header c).1 then BatchExit.socketCleanup
            else BatchExit.socketError := by
    intro h1 h2
    simp only [dispatchBatch, h1, h2, if_true]
    generalize handshakeForWebSocket env req.header c = r
    obtain ⟨ok, c1⟩ := r
    cases ok <;> simp
  have hb : connectionUpgrade req = true → upgradeWebsocket req = false →
      dispatchBatch env (req :: rest) c = (BatchExit.socketCleanup, c) := by
    intro h1 h2
    simp [dispatchBatch, h1, h2]
  have hc : connectionUpgrade req = false →
      dispatchBatch env (req :: rest) c
        = dispatchBatch env rest
            (((c.call (.execute req) (env.execute req c.ext)).call .flush
              (env.flush (env.execute req c.ext))).call .release
              (env.release (env.flush (env.execute req c.ext)))) := by
    intro h1
    simp [dispatchBatch, h1]
  have hext : ∀ (l : List THttpRequest) (d : Ctx σ),
      ∃ t, (dispatchBatch env l d).2.trace = d.trace ++ t := by
    intro l
    induction l with
    | nil => intro d; exact ⟨[], by simp [dispatchBatch]⟩
    | cons r l ih =>
      intro d
      by_cases h1 : connectionUpgrade r = true
      · by_cases h2 : upgradeWebsocket r = true
        · obtain ⟨t, ht, -⟩ := handshake_reaches env r.header d
          refine ⟨Event.searchEndpoint r.header :: t, ?_⟩
          simp only [dispatchBatch, h1, h2, if_true]
          generalize hg : handshakeForWebSocket env r.header d = g at ht
          obtain ⟨ok, d1⟩ := g
          cases ok <;> exact ht.1
        · exact ⟨[], by simp [dispatchBatch, h1, h2]⟩
      · obtain ⟨t, ht⟩ := ih (((d.call (.execute r) (env.execute r d.ext)).call .flush
          (env.flush (env.execute r d.ext))).call .release
          (env.release (env.flush (env.execute r d.ext))))
        refine ⟨[Event.execute r, Event.flush, Event.release] ++ t, ?_⟩
        simp only [dispatchBatch, h1, Bool.false_eq_true, if_false, Ctx.call_ext]
        rw [ht]
        simp
  have hc3 : connectionUpgrade req = false →
      ∃ t, appended c (dispatchBatch env (req :: rest) c).2
        = Event.execute req :: Event.flush :: Event.release :: t := by
    intro h1
    rw [hc h1]
    obtain ⟨t, ht⟩ := hext rest (((c.call (.execute req) (env.execute req c.ext)).call .flush
      (env.flush (env.execute req c.ext))).call .release
      (env.release (env.flush (env.execute req c.ext))))
    exact ⟨t, by simp [appended, ht]⟩
  refine ⟨ha, hb, fun h1 => ⟨hc h1, ?_⟩, ?_⟩
  · obtain ⟨t, ht⟩ := hc3 h1
    rw [ht]
    rfl
  · constructor
    · intro hhead
      by_cases h1 : connectionUpgrade req = true
      · by_cases h2 : upgradeWebsocket req = true
        · exact ⟨h1, h2⟩
        · rw [hb h1 (by simpa using h2)] at hhead
          simp [appended] at hhead
      · obtain ⟨t, ht⟩ := hc3 (by simpa using h1)
        rw [ht] at hhead
        simp at hhead
    · rintro ⟨h1, h2⟩
      obtain ⟨t, ht, -⟩ := handshake_reaches env req.header c
      rw [(ha h1 h2).1, ht.appended_eq]
      rfl

/-- Witness for C5 (amended): a websocket upgrade request followed by a
plain one; the handshake is entered and the plain request is never executed. -/
theorem upgrade_detection_witness :
    (dispatchBatch simEnv [websocketRequest, plainRequest] (startCtx quietSim)).2
        = (handshakeForWebSocket simEnv websocketRequest.header (startCtx quietSim)).2
    ∧ (dispatchBatch simEnv [websocketRequest, plainRequest] (startCtx quietSim)).1
        = BatchExit.socketCleanup :=
  (upgrade_detection simEnv websocketRequest [plainRequest] (startCtx quietSim)).1
    (by decide) (by decide)

/-! ## The events of `run` -/

theorem readWait_reaches {σ : Type} (env : Collab σ) (fuel : Nat) :
    ∀ c : Ctx σ, ∃ t, Reaches c (readWait env fuel c).2 t ∧ ∀ e, e ∈ t → isPlain e = true := by
  induction fuel with
  | zero => intro c; exact ⟨[], Reaches.refl c, by simp⟩
  | succ fuel ih =>
    intro c
    simp only [readWait]
    split
    · exact ⟨[], Reaches.refl c, by simp⟩
    · split
      · exact ⟨[], Reaches.refl c, by simp⟩
      · split
        · exact ⟨[], Reaches.refl c, by simp⟩
        · obtain ⟨t, ht, hp⟩ := ih (c.call (.waitForReadyRead 10) (env.waitForReadyRead 10 c.ext).2)
          refine ⟨[Event.waitForReadyRead 10] ++ t, (Reaches.call c _ _).trans ht, ?_⟩
          intro e he
          rcases List.mem_append.mp he with h | h
          · simp only [List.mem_singleton] at h
            subst h
            rfl
          · exact hp e h

theorem readRequest_reaches {σ : Type} (env : Collab σ) (fuel : Nat) (c : Ctx σ) :
    ∃ t, Reaches c (readRequest env fuel c).2 t ∧ ∀ e, e ∈ t → isPlain e = true := by
  obtain ⟨t, ht, hp⟩ := readWait_reaches env fuel c
  unfold readRequest
  generalize readWait env fuel c = r at ht
  obtain ⟨left, c1⟩ := r
  cases left
  · exact ⟨t, ht, hp⟩
  · simp only
    split
    · refine ⟨t ++ [Event.abort], ht.trans (Reaches.call c1 _ _), ?_⟩
      intro e he
      rcases List.mem_append.mp he with h | h
      · exact hp e h
      · simp only [List.mem_singleton] at h
        subst h
        rfl
    · refine ⟨t ++ [Event.read], ht.trans (Reaches.call c1 _ _), ?_⟩
      intro e he
      rcases List.mem_append.mp he with h | h
      · exact hp e h
      · simp only [List.mem_singleton] at h
        subst h
        rfl

/-- The shape of the events of a loop of `run`: no error signal and no
hand-over, or a hand-over as the very last event in which case the loop was
left towards `socket_cleanup` (`viaCleanup`). -/
theorem handoff_shape_cons {viaCleanup : Prop} {t : List Event} (pre : List Event)
    (hpre : ∀ e, e ∈ pre → isPlain e = true)
    (h : (∀ e, e ∈ t → isPlain e = true)
      ∨ (viaCleanup ∧ ∃ t0 ws session, t = t0 ++ [Event.startWorkerForOpening ws session]
          ∧ ∀ e, e ∈ t0 → isPlain e = true)) :
    (∀ e, e ∈ pre ++ t → isPlain e = true)
      ∨ (viaCleanup ∧ ∃ t0 ws session, pre ++ t = t0 ++ [Event.startWorkerForOpening ws session]
          ∧ ∀ e, e ∈ t0 → isPlain e = true) := by
  rcases h with h | ⟨hv, t0, ws, session, ht, h0⟩
  · left
    intro e he
    rcases List.mem_append.mp he with h1 | h1
    · exact hpre e h1
    · exact h e h1
  · right
    refine ⟨hv, pre ++ t0, ws, session, by rw [ht, List.append_assoc], ?_⟩
    intro e he
    rcases List.mem_append.mp he with h1 | h1
    · exact hpre e h1
    · exact h0 e h1

theorem dispatchBatch_reaches {σ : Type} (env : Collab σ) (reqs : List THttpRequest) :
    ∀ c : Ctx σ, ∃ t, Reaches c (dispatchBatch env reqs c).2 t
      ∧ ((∀ e, e ∈ t → isPlain e = true)
        ∨ ((dispatchBatch env reqs c).1 = BatchExit.socketCleanup
          ∧ ∃ t0 ws session, t = t0 ++ [Event.startWorkerForOpening ws session]
            ∧ ∀ e, e ∈ t0 → isPlain e = true)) := by
  induction reqs with
  | nil => intro c; exact ⟨[], Reaches.refl c, Or.inl (by simp)⟩
  | cons r rest ih =>
    intro c
    by_cases h1 : connectionUpgrade r = true
    · by_cases h2 : upgradeWebsocket r = true
      · obtain ⟨t, ht, hshape⟩ := handshake_reaches env r.header c
        simp only [dispatchBatch, h1, h2, if_true]
        generalize handshakeForWebSocket env r.header c = g at ht hshape
        obtain ⟨ok, c1⟩ := g
        refine ⟨Event.searchEndpoint r.header :: t, by cases ok <;> exact ht, ?_⟩
        rcases hshape with ⟨hok, hnil⟩ | ⟨hok, t0, ws, session, ht0, hp⟩
        · left
          subst hnil
          intro e he
          simp only [List.mem_singleton] at he
          subst he
          rfl
        · right
          simp only at hok
          subst hok
          refine ⟨rfl, Event.searchEndpoint r.header :: t0, ws, session, by rw [ht0]; rfl, ?_⟩
          intro e he
          rcases List.mem_cons.mp he with h | h
          · subst h
            rfl
          · exact hp e h
      · exact ⟨[], by simpa [dispatchBatch, h1, h2] using Reaches.refl c, Or.inl (by simp)⟩
    · obtain ⟨t, ht, hshape⟩ := ih (((c.call (.execute r) (env.execute r c.ext)).call .flush
        (env.flush (env.execute r c.ext))).call .release
        (env.release (env.flush (env.execute r c.ext))))
      have hpre : Reaches c (((c.call (.execute r) (env.execute r c.ext)).call .flush
          (env.flush (env.execute r c.ext))).call .release
          (env.release (env.flush (env.execute r c.ext))))
          [Event.execute r, Event.flush, Event.release] := by
        simp [Reaches]
      have hstep : dispatchBatch env (r :: rest) c
          = dispatchBatch env rest (((c.call (.execute r) (env.execute r c.ext)).call .flush
            (env.flush (env.execute r c.ext))).call .release
            (env.release (env.flush (env.execute r c.ext)))) := by
        simp [dispatchBatch, h1]
      rw [hstep]
      refine ⟨[Event.execute r, Event.flush, Event.release] ++ t, hpre.trans ht, ?_⟩
      refine handoff_shape_cons _ ?_ hshape
      intro e he
      simp only [List.mem_cons, List.mem_singleton, List.not_mem_nil, or_false] at he
      rcases he with h | h | h <;> subst h <;> rfl

theorem mainLoop_reaches {σ : Type} (env : Collab σ) (inner fuel : Nat) :
    ∀ c : Ctx σ, ∃ t, Reaches c (mainLoop env inner fuel c).2 t
      ∧ ((∀ e, e ∈ t → isPlain e = true)
        ∨ ((mainLoop env inner fuel c).1 = LoopExit.socketCleanup
          ∧ ∃ t0 ws session, t = t0 ++ [Event.startWorkerForOpening ws session]
            ∧ ∀ e, e ∈ t0 → isPlain e = true)) := by
  induction fuel with
  | zero => intro c; exact ⟨[], Reaches.refl c, Or.inl (by simp)⟩
  | succ fuel ih =>
    intro c
    obtain ⟨t1, h1, hp1⟩ := readRequest_reaches env inner c
    simp only [mainLoop]
    generalize readRequest env inner c = r at h1
    obtain ⟨batch, c1⟩ := r
    cases batch with
    | none => exact ⟨t1, h1, Or.inl hp1⟩
    | some reqs =>
      simp only
      split
      · exact ⟨t1, h1, Or.inl hp1⟩
      · obtain ⟨t2, h2, hshape2⟩ := dispatchBatch_reaches env reqs c1
        generalize dispatchBatch env reqs c1 = d at h2 hshape2
        obtain ⟨ex, c2⟩ := d
        cases ex with
        | socketError =>
          refine ⟨t1 ++ t2, h1.trans h2, ?_⟩
          have := handoff_shape_cons t1 hp1 hshape2
          rcases this with h | ⟨hv, _⟩
          · exact Or.inl h
          · cases hv
        | socketCleanup =>
          refine ⟨t1 ++ t2, h1.trans h2, ?_⟩
          have := handoff_shape_cons t1 hp1 hshape2
          rcases this with h | ⟨_, hrest⟩
          · exact Or.inl h
          · exact Or.inr ⟨rfl, hrest⟩
        | completed =>
          have hplain2 : ∀ e, e ∈ t1 ++ t2 ++ [Event.waitForReadyRead 5000] → isPlain e = true := by
            have := handoff_shape_cons t1 hp1 hshape2
            rcases this with h | ⟨hv, _⟩
            · intro e he
              rcases List.mem_append.mp he with h3 | h3
              · exact h e h3
              · simp only [List.mem_singleton] at h3
                subst h3
                rfl
            · cases hv
          have h3 : Reaches c (c2.call (.waitForReadyRead 5000)
              (env.waitForReadyRead 5000 c2.ext).2)
              (t1 ++ t2 ++ [Event.waitForReadyRead 5000]) :=
            (h1.trans h2).trans (Reaches.call c2 _ _)
          simp only
          split
          · exact ⟨_, h3, Or.inl hplain2⟩
          · obtain ⟨t4, h4, hshape4⟩ := ih (c2.call (.waitForReadyRead 5000)
              (env.waitForReadyRead 5000 c2.ext).2)
            exact ⟨_, h3.trans h4, handoff_shape_cons _ hplain2 hshape4⟩

theorem drainEvents_reaches {σ : Type} (env : Collab σ) (fuel : Nat) :
    ∀ c : Ctx σ, ∃ t, Reaches c (drainEvents env fuel c).2 t
      ∧ ∀ e, e ∈ t → e = Event.processEvents := by
  induction fuel with
  | zero => intro c; exact ⟨[], Reaches.refl c, by simp⟩
  | succ fuel ih =>
    intro c
    simp only [drainEvents]
    split
    · obtain ⟨t, ht, hp⟩ := ih (c.call .processEvents (env.processEvents c.ext).2)
      refine ⟨[Event.processEvents] ++ t, (Reaches.call c _ _).trans ht, ?_⟩
      intro e he
      rcases List.mem_append.mp he with h | h
      · simpa using h
      · exact hp e h
    · exact ⟨[Event.processEvents], Reaches.call c _ _, by simp⟩

theorem socketError_reaches {σ : Type} (env : Collab σ) (c : Ctx σ) :
    Reaches c (socketError env c) [Event.deleteHttpSocket] := by
  simp [Reaches, socketError]

theorem socketCleanup_reaches {σ : Type} (env : Collab σ) (fuel : Nat) (c : Ctx σ) :
    ∃ t, Reaches c (socketCleanup env fuel c).2 t ∧ ∀ e, e ∈ t → isQuiet e = true := by
  obtain ⟨t, ht, hp⟩ := drainEvents_reaches env fuel c
  unfold socketCleanup
  generalize drainEvents env fuel c = d at ht
  obtain ⟨done, c1⟩ := d
  cases done
  · refine ⟨t, ht, ?_⟩
    intro e he
    rw [hp e he]
    rfl
  · refine ⟨t ++ [Event.deleteHttpSocket], ht.trans (socketError_reaches env c1), ?_⟩
    intro e he
    rcases List.mem_append.mp he with h | h
    · rw [hp e h]
      rfl
    · simp only [List.mem_singleton] at h
      subst h
      rfl

theorem isQuiet_isPlain {e : Event} (h : isQuiet e = true) : isPlain e = true := by
  cases e <;> first | rfl | cases h

theorem afterLoop_reaches {σ : Type} (env : Collab σ) (fuel : Nat) (exit : LoopExit) (c : Ctx σ) :
    ∃ u, Reaches c (afterLoop env fuel exit c).2 u
      ∧ (∀ e, e ∈ u → isPlain e = true)
      ∧ (exit = LoopExit.socketCleanup → ∀ e, e ∈ u → isQuiet e = true) := by
  cases exit with
  | outOfFuel => exact ⟨[], Reaches.refl c, by simp, by simp⟩
  | socketError =>
    refine ⟨[Event.deleteHttpSocket], socketError_reaches env c, ?_, by simp⟩
    intro e he
    simp only [List.mem_singleton] at he
    subst he
    rfl
  | socketCleanup =>
    obtain ⟨t, ht, hq⟩ := socketCleanup_reaches env fuel c
    exact ⟨t, ht, fun e he => isQuiet_isPlain (hq e he), fun _ => hq⟩
  | closing =>
    obtain ⟨t, ht, hq⟩ := socketCleanup_reaches env fuel (closeHttpSocket env c)
    refine ⟨[Event.close] ++ t, (Reaches.call c _ _).trans ht, ?_, by simp⟩
    intro e he
    rcases List.mem_append.mp he with h | h
    · simp only [List.mem_singleton] at h
      subst h
      rfl
    · exact isQuiet_isPlain (hq e h)

theorem isPlain_not_handoff {e : Event} (h : isPlain e = true) : isHandoff e = false := by
  cases e <;> first | rfl | cases h

theorem isPlain_not_emitError {e : Event} (h : isPlain e = true) : isEmitError e = false := by
  cases e <;> first | rfl | cases h

theorem quiet_after_first_handoff (t0 u : List Event) (x : Event)
    (h0 : ∀ e, e ∈ t0 → isHandoff e = false) (hu : ∀ e, e ∈ u → isQuiet e = true)
    (pre post : List Event) (ws : TWebSocket) (session : TSession)
    (h : t0 ++ x :: u = pre ++ Event.startWorkerForOpening ws session :: post) :
    ∀ e, e ∈ post → isQuiet e = true := by
  rcases List.append_eq_append_iff.mp h with ⟨a, _, ha⟩ | ⟨b, hb, hb2⟩
  · cases a with
    | nil =>
      simp only [List.nil_append, List.cons.injEq] at ha
      rw [← ha.2]
      exact hu
    | cons y a =>
      simp only [List.cons_append, List.cons.injEq] at ha
      intro e he
      exact hu e (by rw [ha.2]; simp [he])
  · cases b with
    | nil =>
      simp only [List.nil_append, List.cons.injEq] at hb2
      rw [hb2.2]
      exact hu
    | cons y b =>
      simp only [List.cons_append, List.cons.injEq] at hb2
      have hy : isHandoff y = false := h0 y (by rw [hb]; simp)
      rw [← hb2.1] at hy
      cases hy

theorem no_handoff_split (l : List Event) (h : ∀ e, e ∈ l → isHandoff e = false)
    (pre post : List Event) (ws : TWebSocket) (session : TSession) :
    l ≠ pre ++ Event.startWorkerForOpening ws session :: post := by
  intro hl
  have := h (Event.startWorkerForOpening ws session) (by rw [hl]; simp)
  cases this

theorem run_bind_failed {σ : Type} (env : Collab σ) (fuel : Nat) (c : Ctx σ)
    (hb : (env.setSocketDescriptor c.socketDesc (env.newHttpSocket c.ext)).1 = false) :
    (run env fuel c).1 = true
    ∧ Reaches c (run env fuel c).2
        [Event.newHttpSocket, Event.setSocketDescriptor c.socketDesc,
          Event.emitError (env.error
            (env.setSocketDescriptor c.socketDesc (env.newHttpSocket c.ext)).2),
          Event.deleteHttpSocket]
    ∧ (run env fuel c).2.socketDesc = c.socketDesc
    ∧ (run env fuel c).2.httpSocket = false := by
  simp [run, hb, socketError, Reaches]

theorem run_bound {σ : Type} (env : Collab σ) (fuel : Nat) (c : Ctx σ)
    (hb : (env.setSocketDescriptor c.socketDesc (env.newHttpSocket c.ext)).1 = true) :
    ∃ t, Reaches c (run env fuel c).2
        (Event.newHttpSocket :: Event.setSocketDescriptor c.socketDesc :: t)
      ∧ ((∀ e, e ∈ t → isPlain e = true)
        ∨ ∃ t0 ws session u, t = t0 ++ Event.startWorkerForOpening ws session :: u
            ∧ (∀ e, e ∈ t0 → isPlain e = true) ∧ ∀ e, e ∈ u → isQuiet e = true) := by
  have hrun : run env fuel c
      = afterLoop env fuel
          (mainLoop env fuel fuel
            { ({ c.call .newHttpSocket (env.newHttpSocket c.ext) with httpSocket := true }
                : Ctx σ).call (.setSocketDescriptor c.socketDesc)
                (env.setSocketDescriptor c.socketDesc (env.newHttpSocket c.ext)).2
              with socketDesc := 0 }).1
          (mainLoop env fuel fuel
            { ({ c.call .newHttpSocket (env.newHttpSocket c.ext) with httpSocket := true }
                : Ctx σ).call (.setSocketDescriptor c.socketDesc)
                (env.setSocketDescriptor c.socketDesc (env.newHttpSocket c.ext)).2
              with socketDesc := 0 }).2 := by
    simp [run, hb, Ctx.call]
  rw [hrun]
  generalize hc2 : ({ ({ c.call .newHttpSocket (env.newHttpSocket c.ext) with httpSocket := true }
                : Ctx σ).call (.setSocketDescriptor c.socketDesc)
                (env.setSocketDescriptor c.socketDesc (env.newHttpSocket c.ext)).2
              with socketDesc := 0 } : Ctx σ) = c2
  have h0 : Reaches c c2 [Event.newHttpSocket, Event.setSocketDescriptor c.socketDesc] := by
    subst hc2
    simp [Reaches, Ctx.call]
  obtain ⟨t, ht, hshape⟩ := mainLoop_reaches env fuel fuel c2
  obtain ⟨u, hu, hplain, hquiet⟩ := afterLoop_reaches env fuel
    (mainLoop env fuel fuel c2).1 (mainLoop env fuel fuel c2).2
  refine ⟨t ++ u, by simpa using (h0.trans ht).trans hu, ?_⟩
  rcases hshape with h | ⟨hexit, t0, ws, session, ht0, hp0⟩
  · left
    intro e he
    rcases List.mem_append.mp he with h1 | h1
    · exact h e h1
    · exact hplain e h1
  · right
    exact ⟨t0, ws, session, u, by rw [ht0]; simp, hp0, hquiet hexit⟩

theorem run_counter {σ : Type} (env : Collab σ) (fuel : Nat) (c : Ctx σ) :
    (run env fuel c).2.threadCounter = c.threadCounter := by
  by_cases hb : (env.setSocketDescriptor c.socketDesc (env.newHttpSocket c.ext)).1 = true
  · obtain ⟨t, ht, -⟩ := run_bound env fuel c hb
    exact ht.2
  · exact (run_bind_failed env fuel c (by simpa using hb)).2.1.2

theorem isQuiet_cases {e : Event} (h : isQuiet e = true) :
    e = Event.processEvents ∨ e = Event.deleteHttpSocket := by
  cases e <;> first | exact Or.inl rfl | exact Or.inr rfl | cases h

/-! ## The upgrade handshake on a match -/

/-- C6: when `searchEndpoint` returns true, `handshakeForWebSocket` returns
true and makes exactly these calls in this order, each once:
`searchEndpoint`, `writeRawData` of the bytes of `handshakeResponse(header)`,
`waitForBytesWritten`, `duplicateSocket` of the socket's descriptor,
construction of the persistent connection from the duplicated descriptor,
the peer address and the same header, `connect`, `moveToThread`, a session
lookup when the session cookie is not empty, `startWorkerForOpening` with
that session (the empty session without cookie). In every trace of `run`,
whatever the fuel, the calls that follow a `startWorkerForOpening` are only
`processEvents` and the deletion of the socket object: no read, write, flush
or close. -/
theorem handshake_order_on_match {σ : Type} (env : Collab σ) (header : THttpHeader) (c : Ctx σ)
    (hfound : (env.searchEndpoint header c.ext).1 = true) :
    (handshakeForWebSocket env header c).1 = true
    ∧ appended c (handshakeForWebSocket env header c).2
        = [Event.searchEndpoint header, Event.writeRawData (env.handshakeResponse header),
            Event.waitForBytesWritten,
            Event.duplicateSocket (env.socketDescriptor (afterHandshakeWrite env header c.ext)),
            Event.newWebSocket (handshakeSocket env header c.ext),
            Event.connectDeleteLater (handshakeSocket env header c.ext),
            Event.moveToThread (handshakeSocket env header c.ext)]
          ++ (if (env.sessionCookie header).isEmpty then []
              else [Event.findSession (env.sessionCookie header)])
          ++ [Event.startWorkerForOpening (handshakeSocket env header c.ext)
              (if (env.sessionCookie header).isEmpty then TSession.empty
               else (env.findSession (env.sessionCookie header)
                  (afterMoveToThread env header c.ext)).1)]
    ∧ (handshakeSocket env header c.ext).sd
        = (env.duplicateSocket (env.socketDescriptor (afterHandshakeWrite env header c.ext))
            (afterHandshakeWrite env header c.ext)).1
    ∧ (handshakeSocket env header c.ext).peerAddress
        = env.peerAddress
            (env.duplicateSocket (env.socketDescriptor (afterHandshakeWrite env header c.ext))
              (afterHandshakeWrite env header c.ext)).2
    ∧ (handshakeSocket env header c.ext).header = header
    ∧ (∀ (fuel : Nat) (c0 : Ctx σ) (pre post : List Event) (ws : TWebSocket)
        (session : TSession),
        appended c0 (run env fuel c0).2 = pre ++ Event.startWorkerForOpening ws session :: post →
        ∀ e, e ∈ post → e = Event.processEvents ∨ e = Event.deleteHttpSocket) := by
  refine ⟨?_, ?_, rfl, rfl, rfl, ?_⟩
  · by_cases hc : (env.sessionCookie header).isEmpty = true
    · exact (handshake_found_no_cookie env header c hfound hc).1
    · exact (handshake_found_cookie env header c hfound (by simpa using hc)).1
  · by_cases hc : (env.sessionCookie header).isEmpty = true
    · rw [(handshake_found_no_cookie env header c hfound hc).2.appended_eq]
      simp [hc]
    · have hc1 : (env.sessionCookie header).isEmpty = false := by simpa using hc
      rw [(handshake_found_cookie env header c hfound hc1).2.appended_eq]
      simp [hc1]
  · intro fuel c0 pre post ws session hsplit e he
    apply isQuiet_cases
    by_cases hb : (env.setSocketDescriptor c0.socketDesc (env.newHttpSocket c0.ext)).1 = true
    · obtain ⟨t, ht, hshape⟩ := run_bound env fuel c0 hb
      rw [ht.appended_eq] at hsplit
      rcases hshape with hplain | ⟨t0, ws1, s1, u, ht0, hp0, hq⟩
      · exfalso
        refine no_handoff_split _ ?_ pre post ws session hsplit
        intro x hx
        simp only [List.mem_cons] at hx
        rcases hx with h | h | h
        · subst h; rfl
        · subst h; rfl
        · exact isPlain_not_handoff (hplain x h)
      · refine quiet_after_first_handoff
          (Event.newHttpSocket :: Event.setSocketDescriptor c0.socketDesc :: t0) u
          (Event.startWorkerForOpening ws1 s1) ?_ hq pre post ws session ?_ e he
        · intro x hx
          simp only [List.mem_cons] at hx
          rcases hx with h | h | h
          · subst h; rfl
          · subst h; rfl
          · exact isPlain_not_handoff (hp0 x h)
        · rw [← hsplit, ht0]
          simp
    · have hfail := run_bind_failed env fuel c0 (by simpa using hb)
      rw [hfail.2.1.appended_eq] at hsplit
      exfalso
      refine no_handoff_split _ ?_ pre post ws session hsplit
      intro x hx
      simp only [List.mem_cons, List.mem_singleton, List.not_mem_nil, or_false] at hx
      rcases hx with h | h | h | h <;> subst h <;> rfl

/-- Witness for C6: a websocket upgrade request without session cookie on a
peer with a matching endpoint; descriptor 7 is duplicated as 8. -/
theorem handshake_order_on_match_witness :
    (handshakeForWebSocket simEnv websocketRequest.header (startCtx quietSim)).1 = true
    ∧ appended (startCtx quietSim)
        (handshakeForWebSocket simEnv websocketRequest.header (startCtx quietSim)).2
        = [Event.searchEndpoint websocketRequest.header,
            Event.writeRawData (bytes "HTTP/1.1 101 Switching Protocols"),
            Event.waitForBytesWritten,
            Event.duplicateSocket 7,
            Event.newWebSocket ⟨8, bytes "127.0.0.1", websocketRequest.header⟩,
            Event.connectDeleteLater ⟨8, bytes "127.0.0.1", websocketRequest.header⟩,
            Event.moveToThread ⟨8, bytes "127.0.0.1", websocketRequest.header⟩,
            Event.startWorkerForOpening ⟨8, bytes "127.0.0.1", websocketRequest.header⟩
              TSession.empty] :=
  ⟨(handshake_order_on_match simEnv websocketRequest.header (startCtx quietSim) rfl).1,
   (handshake_order_on_match simEnv websocketRequest.header (startCtx quietSim) rfl).2.1⟩

/-! ## The bind failure path -/

/-- C9: when `setSocketDescriptor` fails, `run` returns having made exactly
the calls `new THttpSocket`, `setSocketDescriptor`, one emission of the error
signal with the socket's error code, and the deletion of the socket object
(no read, execute, flush, release, wait or close), and `socketDesc` is as
before; when `setSocketDescriptor` succeeds, no emission of the error signal
occurs in the trace of `run`, whatever the fuel. So the error signal is
emitted if and only if binding fails. -/
theorem bind_failure_path {σ : Type} (env : Collab σ) (fuel : Nat) (c : Ctx σ) :
    ((env.setSocketDescriptor c.socketDesc (env.newHttpSocket c.ext)).1 = false →
      (run env fuel c).1 = true
      ∧ appended c (run env fuel c).2
          = [Event.newHttpSocket, Event.setSocketDescriptor c.socketDesc,
              Event.emitError (env.error
                (env.setSocketDescriptor c.socketDesc (env.newHttpSocket c.ext)).2),
              Event.deleteHttpSocket]
      ∧ (run env fuel c).2.socketDesc = c.socketDesc)
    ∧ ((env.setSocketDescriptor c.socketDesc (env.newHttpSocket c.ext)).1 = true →
      ∀ e, e ∈ appended c (run env fuel c).2 → isEmitError e = false)
    ∧ ((∃ e, e ∈ appended c (run env fuel c).2 ∧ isEmitError e = true)
        ↔ (env.setSocketDescriptor c.socketDesc (env.newHttpSocket c.ext)).1 = false) := by
  have hfail : (env.setSocketDescriptor c.socketDesc (env.newHttpSocket c.ext)).1 = false →
      (run env fuel c).1 = true
      ∧ appended c (run env fuel c).2
          = [Event.newHttpSocket, Event.setSocketDescriptor c.socketDesc,
              Event.emitError (env.error
                (env.setSocketDescriptor c.socketDesc (env.newHttpSocket c.ext)).2),
              Event.deleteHttpSocket]
      ∧ (run env fuel c).2.socketDesc = c.socketDesc := by
    intro hb
    obtain ⟨h1, h2, h3, -⟩ := run_bind_failed env fuel c hb
    exact ⟨h1, h2.appended_eq, h3⟩
  have hok : (env.setSocketDescriptor c.socketDesc (env.newHttpSocket c.ext)).1 = true →
      ∀ e, e ∈ appended c (run env fuel c).2 → isEmitError e = false := by
    intro hb e he
    obtain ⟨t, ht, hshape⟩ := run_bound env fuel c hb
    rw [ht.appended_eq] at he
    simp only [List.mem_cons] at he
    rcases he with h | h | h
    · subst h; rfl
    · subst h; rfl
    · rcases hshape with hplain | ⟨t0, ws, session, u, ht0, hp0, hq⟩
      · exact isPlain_not_emitError (hplain e h)
      · rw [ht0] at h
        rcases List.mem_append.mp h with h1 | h1
        · exact isPlain_not_emitError (hp0 e h1)
        · rcases List.mem_cons.mp h1 with h2 | h2
          · subst h2; rfl
          · exact isPlain_not_emitError (isQuiet_isPlain (hq e h2))
  refine ⟨hfail, hok, ?_⟩
  constructor
  · rintro ⟨e, he, hemit⟩
    by_contra hb
    have := hok (by simpa using hb) e he
    rw [this] at hemit
    cases hemit
  · intro hb
    refine ⟨Event.emitError (env.error
      (env.setSocketDescriptor c.socketDesc (env.newHttpSocket c.ext)).2), ?_, rfl⟩
    rw [(hfail hb).2.1]
    simp

/-- Witness for C9: binding fails with error code 5. -/
theorem bind_failure_path_witness :
    (run simEnv 3 bindFailCtx).1 = true
    ∧ appended bindFailCtx (run simEnv 3 bindFailCtx).2
        = [Event.newHttpSocket, Event.setSocketDescriptor 7, Event.emitError 5,
            Event.deleteHttpSocket]
    ∧ (run simEnv 3 bindFailCtx).2.socketDesc = 7 :=
  (bind_failure_path simEnv 3 bindFailCtx).1 rfl

/-! ## The counter of active workers -/

theorem wrapInt32_add (a b : Int) : wrapInt32 (wrapInt32 a + b) = wrapInt32 (a + b) := by
  unfold wrapInt32
  omega

theorem wrapInt32_of_range (a : Int) (h : -2147483648 ≤ a ∧ a < 2147483648) :
    wrapInt32 a = a := by
  unfold wrapInt32
  omega

theorem destructBody_counter {σ : Type} (env : Collab σ) (c : Ctx σ) :
    (destructBody env c).threadCounter = wrapInt32 (c.threadCounter - 1) := by
  unfold destructBody
  by_cases h1 : c.httpSocket = true <;> by_cases h2 : c.socketDesc > 0 <;> simp [h1, h2]

theorem live_set_some (l : List (Option Worker)) :
    ∀ (id : Nat) (w w1 : Worker), l.get? id = some (some w) →
      ((l.set id (some w1)).filter Option.isSome).length = (l.filter Option.isSome).length := by
  induction l with
  | nil => intro id w w1 h; simp at h
  | cons a l ih =>
    intro id w w1 h
    cases id with
    | zero =>
      simp only [List.get?, Option.some.injEq] at h
      subst h
      simp [List.filter]
    | succ id =>
      simp only [List.get?] at h
      have := ih id w w1 h
      cases a <;> simp [List.filter, this]

theorem live_set_none (l : List (Option Worker)) :
    ∀ (id : Nat) (w : Worker), l.get? id = some (some w) →
      ((l.set id none).filter Option.isSome).length + 1 = (l.filter Option.isSome).length := by
  induction l with
  | nil => intro id w h; simp at h
  | cons a l ih =>
    intro id w h
    cases id with
    | zero =>
      simp only [List.get?, Option.some.injEq] at h
      subst h
      simp [List.filter]
    | succ id =>
      simp only [List.get?] at h
      have := ih id w h
      cases a <;> simp [List.filter, this]

theorem applyOp_counter {σ : Type} (env : Collab σ) (p p1 : Process σ) (op : Op)
    (h : applyOp env p op = some p1) :
    wrapInt32 (p1.threadCounter - liveWorkers p1) = wrapInt32 (p.threadCounter - liveWorkers p)
    ∧ (-2147483648 ≤ p.threadCounter ∧ p.threadCounter < 2147483648 →
        -2147483648 ≤ p1.threadCounter ∧ p1.threadCounter < 2147483648) := by
  cases op with
  | construct socket =>
    simp only [applyOp, Option.some.injEq] at h
    subst h
    have hl : liveWorkers (construct socket p) = liveWorkers p + 1 := by
      simp [liveWorkers, construct, List.filter_append, List.filter]
    rw [hl]
    simp only [construct, wrapInt32]
    omega
  | run id fuel =>
    simp only [applyOp] at h
    split at h
    · rename_i w hw
      simp only [Option.some.injEq] at h
      subst h
      have hl : liveWorkers (p.store id (some ⟨(run env fuel (p.ctx w)).2.socketDesc,
          (run env fuel (p.ctx w)).2.httpSocket⟩) (run env fuel (p.ctx w)).2) = liveWorkers p := by
        simp only [liveWorkers, Process.store]
        exact live_set_some p.workers id w _ hw
      rw [hl]
      have hc : (p.store id (some ⟨(run env fuel (p.ctx w)).2.socketDesc,
          (run env fuel (p.ctx w)).2.httpSocket⟩) (run env fuel (p.ctx w)).2).threadCounter
          = p.threadCounter := by
        simp only [Process.store]
        rw [run_counter]
        rfl
      rw [hc]
      exact ⟨rfl, fun hr => hr⟩
    · cases h
  | destroy id =>
    simp only [applyOp] at h
    split at h
    · rename_i w hw
      simp only [Option.some.injEq] at h
      subst h
      have hl : liveWorkers (p.store id none (destructBody env (p.ctx w))) + 1
          = liveWorkers p := by
        simp only [liveWorkers, Process.store]
        exact live_set_none p.workers id w hw
      have hc : (p.store id none (destructBody env (p.ctx w))).threadCounter
          = wrapInt32 (p.threadCounter - 1) := by
        simp only [Process.store]
        rw [destructBody_counter]
        rfl
      rw [hc]
      have hl1 : (liveWorkers p : Int)
          = (liveWorkers (p.store id none (destructBody env (p.ctx w))) : Int) + 1 := by
        exact_mod_cast hl.symm
      rw [hl1]
      simp only [wrapInt32]
      omega
    · cases h

theorem applyOps_counter {σ : Type} (env : Collab σ) (ops : List Op) :
    ∀ (p p1 : Process σ), applyOps env ops p = some p1 →
      wrapInt32 (p1.threadCounter - liveWorkers p1) = wrapInt32 (p.threadCounter - liveWorkers p)
      ∧ (-2147483648 ≤ p.threadCounter ∧ p.threadCounter < 2147483648 →
          -2147483648 ≤ p1.threadCounter ∧ p1.threadCounter < 2147483648) := by
  induction ops with
  | nil =>
    intro p p1 h
    simp only [applyOps, Option.some.injEq] at h
    subst h
    exact ⟨rfl, id⟩
  | cons op ops ih =>
    intro p p1 h
    simp only [applyOps] at h
    split at h
    · rename_i p2 hp2
      obtain ⟨h1, h2⟩ := applyOp_counter env p p2 op hp2
      obtain ⟨h3, h4⟩ := ih p2 p1 h
      exact ⟨h3.trans h1, fun hr => h4 (h2 hr)⟩
    · cases h

/-- C1 (refuted as stated): from a counter of 2147483647 and no worker, one
construction leaves one live worker and a counter of -2147483648, not the
initial value plus one: the addition of the 32-bit `QAtomicInt` wraps. -/
theorem threadCount_wraps_at_int_max :
    applyOps simEnv [Op.construct 7] saturatedProcess = some (construct 7 saturatedProcess)
    ∧ liveWorkers saturatedProcess = 0
    ∧ liveWorkers (construct 7 saturatedProcess) = 1
    ∧ threadCount (construct 7 saturatedProcess) = -2147483648
    ∧ threadCount (construct 7 saturatedProcess)
        ≠ threadCount saturatedProcess + liveWorkers (construct 7 saturatedProcess) := by
  refine ⟨rfl, ?_, ?_, ?_, ?_⟩ <;> decide

/-- C1 (amended): for every sequence of constructions, executions of `run` (with any
fuel, hence on any path and also while still running) and destructions of
live workers, started from a counter that is a 32-bit value: `threadCount()`
afterwards is the initial value plus the change in the number of live
workers, in 32-bit arithmetic, and exactly that sum whenever the sum is a
32-bit value; when as many workers are live as before the count is back to
its initial value. The constructor adds 1, `run` leaves the counter as it
is, the destructor subtracts 1. -/
theorem threadCount_invariant {σ : Type} (env : Collab σ) (ops : List Op) (p p1 : Process σ)
    (hops : applyOps env ops p = some p1)
    (hinit : -2147483648 ≤ threadCount p ∧ threadCount p < 2147483648) :
    threadCount p1 = wrapInt32 (threadCount p + liveWorkers p1 - liveWorkers p)
    ∧ ((-2147483648 ≤ threadCount p + liveWorkers p1 - liveWorkers p
        ∧ threadCount p + liveWorkers p1 - liveWorkers p < 2147483648) →
        threadCount p1 = threadCount p + liveWorkers p1 - liveWorkers p)
    ∧ (liveWorkers p1 = liveWorkers p → threadCount p1 = threadCount p)
    ∧ (∀ (socket : Int) (q : Process σ),
        threadCount (construct socket q) = wrapInt32 (threadCount q + 1)
        ∧ liveWorkers (construct socket q) = liveWorkers q + 1)
    ∧ (∀ (fuel : Nat) (c : Ctx σ), (run env fuel c).2.threadCounter = c.threadCounter)
    ∧ (∀ c : Ctx σ, (destructBody env c).threadCounter = wrapInt32 (c.threadCounter - 1)) := by
  obtain ⟨h1, h2⟩ := applyOps_counter env ops p p1 hops
  have hr1 := h2 hinit
  have hmain : threadCount p1 = wrapInt32 (threadCount p + liveWorkers p1 - liveWorkers p) := by
    simp only [threadCount] at *
    simp only [wrapInt32] at h1 ⊢
    omega
  refine ⟨hmain, ?_, ?_, ?_, run_counter env, destructBody_counter env⟩
  · intro hfit
    rw [hmain]
    exact wrapInt32_of_range _ hfit
  · intro hlive
    rw [hmain, hlive]
    have : threadCount p + (liveWorkers p : Int) - (liveWorkers p : Int) = threadCount p := by
      omega
    rw [this]
    exact wrapInt32_of_range _ hinit
  · intro socket q
    refine ⟨rfl, ?_⟩
    simp [liveWorkers, construct, List.filter_append, List.filter]

/-- Witness for C1 (amended): two workers are constructed, the first runs (its peer
sends nothing, the read times out) and is destroyed; one worker is left and
the count is 1. -/
theorem threadCount_invariant_witness :
    threadCount ((applyOps simEnv [Op.construct 7, Op.construct 9, Op.run 0 20, Op.destroy 0]
        emptyProcess).getD emptyProcess) = 1
    ∧ liveWorkers ((applyOps simEnv [Op.construct 7, Op.construct 9, Op.run 0 20, Op.destroy 0]
        emptyProcess).getD emptyProcess) = 1 :=
  ⟨((threadCount_invariant simEnv [Op.construct 7, Op.construct 9, Op.run 0 20, Op.destroy 0]
      emptyProcess
      ((applyOps simEnv [Op.construct 7, Op.construct 9, Op.run 0 20, Op.destroy 0]
        emptyProcess).getD emptyProcess)
      rfl (by decide)).2.1 (by decide)),
   by decide⟩

/-! ## Leaving `run`: endpoint not found against empty batch -/

theorem dispatchBatch_append_plain {σ : Type} (env : Collab σ) (pre l : List THttpRequest) :
    ∀ c : Ctx σ, (∀ r, r ∈ pre → connectionUpgrade r = false) →
      dispatchBatch env (pre ++ l) c = dispatchBatch env l (dispatchBatch env pre c).2 := by
  induction pre with
  | nil => intro c _; rfl
  | cons r pre ih =>
    intro c h
    have hr : connectionUpgrade r = false := h r (List.mem_cons_self r pre)
    simp only [List.cons_append, dispatchBatch, hr, Bool.false_eq_true, if_false]
    exact ih _ (fun q hq => h q (List.mem_cons_of_mem r hq))

theorem dispatchBatch_not_found {σ : Type} (env : Collab σ) (req : THttpRequest)
    (rest : List THttpRequest) (c : Ctx σ)
    (hconn : connectionUpgrade req = true) (hup : upgradeWebsocket req = true)
    (hs : (env.searchEndpoint req.header c.ext).1 = false) :
    dispatchBatch env (req :: rest) c
      = (BatchExit.socketError,
          c.call (.searchEndpoint req.header) (env.searchEndpoint req.header c.ext).2) := by
  simp [dispatchBatch, hconn, hup, handshakeForWebSocket, hs]

theorem drainEvents_finished {σ : Type} (env : Collab σ) (fuel : Nat) :
    ∀ c : Ctx σ, (drainEvents env fuel c).1 = true →
      appended c (drainEvents env fuel c).2 ≠ [] := by
  induction fuel with
  | zero => intro c h; simp [drainEvents] at h
  | succ fuel ih =>
    intro c _
    obtain ⟨t, ht, -⟩ := drainEvents_reaches env fuel
      (c.call .processEvents (env.processEvents c.ext).2)
    simp only [drainEvents]
    split
    · rw [((Reaches.call c _ _).trans ht).appended_eq]
      simp
    · rw [(Reaches.call c .processEvents (env.processEvents c.ext).2).appended_eq]
      simp

/-- C11 (refuted as stated): on the simulated peer, after `searchEndpoint`
found no endpoint for the upgrade request `run` only deletes the socket
object, while after `readRequest` yielded the empty batch (one `abort`) it
closes the socket, drains the event loop and then deletes the socket object. -/
theorem not_found_upgrade_skips_close :
    (run simEnv 5 noEndpointUpgradeCtx).1 = true
    ∧ (run simEnv 5 noEndpointUpgradeCtx).2.trace
        = [Event.newHttpSocket, Event.setSocketDescriptor 7, Event.read,
            Event.searchEndpoint websocketRequest.header, Event.deleteHttpSocket]
    ∧ (run simEnv 5 idleTimeoutCtx).1 = true
    ∧ (run simEnv 5 idleTimeoutCtx).2.trace
        = [Event.newHttpSocket, Event.setSocketDescriptor 7, Event.abort,
            Event.close, Event.processEvents, Event.deleteHttpSocket] := by
  decide

/-- C11 (amended): in the part of `run` that follows the loop `for (;;)`,
(a) when a batch holds, after requests without upgrade, a websocket upgrade
request whose endpoint is not found, the loop is left through `socket_error`
right after `searchEndpoint` and `run` returns after one more call, the
deletion of the socket object: no `close`, no draining of the event loop;
(b) when `readRequest` yields the empty batch, the loop is left by `break`
and `run` calls `close`, then drains the event loop (`processEvents` at least
once when the drain ends), then deletes the socket object. Both paths end
with the deletion of the socket object and leave `httpSocket` null. -/
theorem closing_paths {σ : Type} (env : Collab σ) (inner n fuel : Nat) (c c1 : Ctx σ) :
    (∀ (pre : List THttpRequest) (req : THttpRequest) (rest : List THttpRequest),
      readRequest env inner c = (some (pre ++ req :: rest), c1) →
      (∀ r, r ∈ pre → connectionUpgrade r = false) →
      connectionUpgrade req = true → upgradeWebsocket req = true →
      (env.searchEndpoint req.header (dispatchBatch env pre c1).2.ext).1 = false →
      (mainLoop env inner (n + 1) c).1 = LoopExit.socketError
      ∧ (mainLoop env inner (n + 1) c).2.trace
          = c1.trace ++ batchEvents pre ++ [Event.searchEndpoint req.header]
      ∧ (afterLoop env fuel (mainLoop env inner (n + 1) c).1 (mainLoop env inner (n + 1) c).2).1
          = true
      ∧ appended (mainLoop env inner (n + 1) c).2
          (afterLoop env fuel (mainLoop env inner (n + 1) c).1 (mainLoop env inner (n + 1) c).2).2
          = [Event.deleteHttpSocket]
      ∧ (afterLoop env fuel (mainLoop env inner (n + 1) c).1
          (mainLoop env inner (n + 1) c).2).2.httpSocket = false)
    ∧ (readRequest env inner c = (some [], c1) →
      mainLoop env inner (n + 1) c = (LoopExit.closing, c1)
      ∧ ∃ t : List Event, (∀ e, e ∈ t → e = Event.processEvents)
        ∧ ((afterLoop env fuel LoopExit.closing c1).1 = true →
            t ≠ []
            ∧ appended c1 (afterLoop env fuel LoopExit.closing c1).2
                = Event.close :: t ++ [Event.deleteHttpSocket]
            ∧ (afterLoop env fuel LoopExit.closing c1).2.httpSocket = false)
        ∧ ((afterLoop env fuel LoopExit.closing c1).1 = false →
            appended c1 (afterLoop env fuel LoopExit.closing c1).2 = Event.close :: t)) := by
  constructor
  · intro pre req rest hread hpre hconn hup hs
    have hd : dispatchBatch env (pre ++ req :: rest) c1
        = (BatchExit.socketError,
            (dispatchBatch env pre c1).2.call (.searchEndpoint req.header)
              (env.searchEndpoint req.header (dispatchBatch env pre c1).2.ext).2) := by
      rw [dispatchBatch_append_plain env pre (req :: rest) c1 hpre]
      exact dispatchBatch_not_found env req rest _ hconn hup hs
    have hemp : (pre ++ req :: rest).isEmpty = false := by
      cases pre <;> rfl
    have hloop : mainLoop env inner (n + 1) c
        = (LoopExit.socketError,
            (dispatchBatch env pre c1).2.call (.searchEndpoint req.header)
              (env.searchEndpoint req.header (dispatchBatch env pre c1).2.ext).2) := by
      simp only [mainLoop, hread, hemp, Bool.false_eq_true, if_false, hd]
    rw [hloop]
    refine ⟨rfl, ?_, rfl, ?_, rfl⟩
    · simp [(dispatchBatch_plain env pre c1 hpre).2]
    · exact (socketError_reaches env _).appended_eq
  · intro hread
    refine ⟨by simp [mainLoop, hread], ?_⟩
    obtain ⟨t, ht, hp⟩ := drainEvents_reaches env fuel (closeHttpSocket env c1)
    have hne := drainEvents_finished env fuel (closeHttpSocket env c1)
    rw [ht.appended_eq] at hne
    have hclose : Reaches c1 (closeHttpSocket env c1) [Event.close] := Reaches.call c1 _ _
    refine ⟨t, hp, ?_, ?_⟩
    · intro hdone
      simp only [afterLoop, socketCleanup] at hdone ⊢
      generalize drainEvents env fuel (closeHttpSocket env c1) = d at ht hne hdone
      obtain ⟨done, c2⟩ := d
      cases done with
      | false => simp at hdone
      | true =>
        refine ⟨hne rfl, ?_, rfl⟩
        have := (hclose.trans ht).trans (socketError_reaches env c2)
        simpa using this.appended_eq
    · intro hdone
      simp only [afterLoop, socketCleanup] at hdone ⊢
      generalize drainEvents env fuel (closeHttpSocket env c1) = d at ht hne hdone
      obtain ⟨done, c2⟩ := d
      cases done with
      | true => simp at hdone
      | false =>
        have := hclose.trans ht
        simpa using this.appended_eq

/-- Witness for C11 (amended): the buffered websocket upgrade request finds
no endpoint; the loop is left through `socket_error` and only the deletion of
the socket object follows. -/
theorem closing_paths_witness :
    (mainLoop simEnv 3 (0 + 1) noEndpointUpgradeCtx).1 = LoopExit.socketError
    ∧ (mainLoop simEnv 3 (0 + 1) noEndpointUpgradeCtx).2.trace
        = [Event.read, Event.searchEndpoint websocketRequest.header]
    ∧ appended (mainLoop simEnv 3 (0 + 1) noEndpointUpgradeCtx).2
        (afterLoop simEnv 3 (mainLoop simEnv 3 (0 + 1) noEndpointUpgradeCtx).1
          (mainLoop simEnv 3 (0 + 1) noEndpointUpgradeCtx).2).2
        = [Event.deleteHttpSocket] :=
  ⟨((closing_paths simEnv 3 0 3 noEndpointUpgradeCtx (readRequest simEnv 3 noEndpointUpgradeCtx).2).1
      [] websocketRequest [] rfl (by simp) (by decide) (by decide) rfl).1,
   ((closing_paths simEnv 3 0 3 noEndpointUpgradeCtx (readRequest simEnv 3 noEndpointUpgradeCtx).2).1
      [] websocketRequest [] rfl (by simp) (by decide) (by decide) rfl).2.1,
   ((closing_paths simEnv 3 0 3 noEndpointUpgradeCtx (readRequest simEnv 3 noEndpointUpgradeCtx).2).1
      [] websocketRequest [] rfl (by simp) (by decide) (by decide) rfl).2.2.2.1⟩

end TreeFrog
